import Mathlib

/-!
Verification development for the svf-42 AGI solver.

This file gives a shallow embedding of the core of the repository — the
AGI queue manager (`src/src/AGIQueueManager.ts`), the transaction helpers
(`src/src/utils.ts` and the variant in `src/unnamed/part_016`), and the
failed-swaps store (`src/src/db/failedSwapsDB.ts`) — and proves or refutes
the frozen claims about it.

Conventions of the embedding:
* JavaScript numbers used as integers are `Nat`; `bigint` is `Nat`
  (all amounts in the program are non-negative).
* `Map<number, T>` becomes a function `Nat → Option T`; `undefined` is `none`.
* `async` methods become pure functions; the results of the external
  capabilities (contract read, swap call, transaction submissions, the
  sqlite store) are supplied by an environment record per step.
* A thrown exception becomes an error value that the embedding threads
  exactly the way the source's `try`/`catch` blocks do.
-/

namespace SVF42

/-- Swap phase strings `'pending' | 'completed' | 'failed'` of `SwapResult.status`
in `AGIQueueManager.ts`. -/
inductive SwapPhase where
  | pending
  | completed
  | failed
deriving DecidableEq

/-- The `SwapResult` record of `AGIQueueManager.ts` (all fields optional there). -/
structure SwapResult where
  agiId : Option Nat := none
  amountToBuy : Option Nat := none
  status : Option SwapPhase := none
  attemptCount : Option Nat := none
deriving DecidableEq

/-- The `viewAGI` result (`AgentGeneratedIntent`): the on-chain data of one
intent as `processAGI` reads it. `orderStatus` is kept as a raw `Nat`, as in
the TypeScript where it is a plain number from the contract. -/
structure AGIView where
  intentType : Nat
  assetToSell : String
  amountToSell : Nat
  assetToBuy : String
  orderId : Nat
  orderStatus : Nat
deriving DecidableEq

/-- One row of the `failed_swaps` sqlite table (`failedSwapsDB.ts`).
`amount_to_sell` is a TEXT column, hence `String` here. -/
structure FailedRow where
  timestamp : Nat
  agi_id : Nat
  error_message : String
  intent_type : Nat
  asset_to_sell : String
  amount_to_sell : String
  asset_to_buy : String
  order_id : Nat
  order_status : Nat
deriving DecidableEq

/-- Errors raised inside a processing step.  `swapError` corresponds to the
`SwapError` class of `errors.ts` (checked by `error instanceof SwapError`);
`other` is every other thrown value. -/
inductive StepErr where
  | swapError (msg : String)
  | other (msg : String)
deriving DecidableEq

/-- The message carried by a step error (`error.message` in the source). -/
def StepErr.message : StepErr → String
  | .swapError m => m
  | .other m => m

/-- Whether the error is a `SwapError` (`error instanceof SwapError`). -/
def StepErr.isSwap : StepErr → Bool
  | .swapError _ => true
  | .other _ => false

/-- How one call to `processAGI` ends, seen from the ticker worker:
it returns normally (`ok`), it caught and classified an error internally
(`caught`), or an exception escaped `processAGI` itself and was only absorbed
by the `.catch` on `startProcessing` in the ticker (`escaped`). -/
inductive StepOutcome where
  | ok
  | caught (e : StepErr)
  | escaped (e : StepErr)
deriving DecidableEq

/-- Observable calls a step makes to the external capabilities. -/
inductive Effect where
  | withdrawCall (id : Nat)
  | swapCall (id : Nat) (fromToken toToken fromAmount : String)
  | depositCall (id : Nat) (amount : Nat)
  | recordFailed (row : FailedRow)
  | deleteFailed (id : Nat)
deriving DecidableEq

/-- Failure injection for the sqlite store: `initFails` makes `this.init()`
throw (opening the database), `getFails` makes `db.get` throw, `runFails`
makes `db.run` throw. -/
structure DbEnv where
  initFails : Bool
  getFails : Bool
  runFails : Bool
deriving DecidableEq

/-- The external world of one processing step: the clock, the `viewAGI`
read, the outcomes of the withdraw simulation/submission, of the swap
capability (`defaultSwap`, returning the integer value of the bought
amount), of the deposit simulation/submission, and the sqlite store. -/
structure TickEnv where
  now : Nat
  view : Except String AGIView
  withdrawOk : Bool
  swapOutcome : Except String Nat
  depositOk : Bool
  dbEnv : DbEnv

/-- In-memory state of one `AGIQueueManager` instance.  `tickerOn` models
`checkIntervalId !== null`. -/
structure QMState where
  swapResults : Nat → Option SwapResult
  queue : List Nat
  isProcessing : Bool
  tickerOn : Bool
  orderStatus : Nat → Option Nat
  lastAttemptTime : Nat → Option Nat
  lastDelay : Nat → Option Nat

/-- `RETRY_DELAY = 1000` in `AGIQueueManager.ts`. -/
def RETRY_DELAY : Nat := 1000

/-- `SWAP_RETRY_DELAY = 30000` in `AGIQueueManager.ts`. -/
def SWAP_RETRY_DELAY : Nat := 30000

/-- `MAX_RETRIES = 2` in `AGIQueueManager.ts`. -/
def MAX_RETRIES : Nat := 2

/-- `CHECK_INTERVAL = 2000` in `AGIQueueManager.ts`. -/
def CHECK_INTERVAL : Nat := 2000

/-- Point update of a map `Nat → Option α`. -/
def upd {α : Type} (m : Nat → Option α) (k : Nat) (v : Option α) : Nat → Option α :=
  fun j => if j = k then v else m j

/-- The fresh `AGIQueueManager` produced by the constructor. -/
def initState : QMState where
  swapResults := fun _ => none
  queue := []
  isProcessing := false
  tickerOn := false
  orderStatus := fun _ => none
  lastAttemptTime := fun _ => none
  lastDelay := fun _ => none

/-- JavaScript truthiness of `this.orderStatus.get(agiId)`: the value exists
and is a non-zero number. -/
def jsTruthy : Option Nat → Bool
  | some v => v ≠ 0
  | none => false

/-- The status selection rule of `processAGI` (lines 293-304): use the
internal status only when the contract status is `1` and
`this.orderStatus.get(agiId)` is truthy; otherwise use the contract status. -/
def effectiveStatus (contractStatus : Nat) (internal : Option Nat) : Nat :=
  if contractStatus = 1 ∧ jsTruthy internal then internal.getD 0 else contractStatus

/-- `shouldSkipTask`: the swap record exists with status `'failed'` and
`(attemptCount || 0) >= MAX_RETRIES`. -/
def shouldSkipTask (s : QMState) (id : Nat) : Bool :=
  match s.swapResults id with
  | some r => r.status = some SwapPhase.failed && r.attemptCount.getD 0 ≥ MAX_RETRIES
  | none => false

/-- Attempt count of an optional swap record, reading a missing record or a
missing field as `0` (the `|| 0` defaults in the source). -/
def attemptsOf : Option SwapResult → Nat
  | some r => r.attemptCount.getD 0
  | none => 0

/-- Number of binary digits beyond 53 in `n`: how many times `n` must be
halved to fit a float64 significand.  `fuel` bounds the recursion; `2000`
is ample for 256-bit values. -/
def excessBits : Nat → Nat → Nat
  | _, 0 => 0
  | n, fuel + 1 => if n < 2 ^ 53 then 0 else excessBits (n / 2) fuel + 1

/-- The value of JavaScript `parseInt` on the decimal representation of `n`:
the IEEE-754 float64 nearest to `n` (round half to even), read back as an
integer.  `handleSwapInitiated` stores `parseInt(amountToBuy)` in the swap
record, so amounts above `2^53` lose precision here. -/
def jsParseInt (n : Nat) : Nat :=
  let e := excessBits n 2000
  if e = 0 then n
  else
    let p := 2 ^ e
    let q := n / p
    let r := n % p
    let h := p / 2
    if h < r ∨ (r = h ∧ q % 2 = 1) then (q + 1) * p else q * p

/-- `handlePendingDispense` (status 0): calls `withdrawAsset`, which throws a
non-swap error when the simulation or submission fails.  (The receipt wait
`checkTransactionReceipt` never throws, see `P16.checkTransactionReceipt_never_errors`.) -/
def handlePendingDispense (env : TickEnv) (s : QMState) (id : Nat) :
    QMState × List Effect × Option StepErr :=
  if env.withdrawOk then (s, [Effect.withdrawCall id], none)
  else (s, [Effect.withdrawCall id], some (StepErr.other "withdraw failed"))

/-- `handleDispensedPendingProceeds` (status 1): records internal status 3. -/
def handleDispensedPendingProceeds (s : QMState) (id : Nat) :
    QMState × List Effect × Option StepErr :=
  ({ s with orderStatus := upd s.orderStatus id (some 3) }, [], none)

/-- The tail of `handleSwapInitiated` after the early returns: bump
`attemptCount` from the pre-existing record (`existingSwap`), call
`defaultSwap`, and store the completed or failed record.  `currentSwap` is
read before the `attemptCount` write and spread into both final writes,
exactly as in the source (lines 429-463). -/
def swapAttempt (env : TickEnv) (s : QMState) (id : Nat) (v : AGIView)
    (existingSwap : Option SwapResult) : QMState × List Effect × Option StepErr :=
  let attemptCount := (match existingSwap with
    | some r => r.attemptCount.getD 0
    | none => 0) + 1
  let currentSwap := s.swapResults id
  let s1 := match currentSwap with
    | some c => { s with swapResults := (upd s.swapResults id
        (some { c with attemptCount := some attemptCount })) }
    | none => s
  let callEff := Effect.swapCall id v.assetToSell v.assetToBuy (Nat.repr v.amountToSell)
  match env.swapOutcome with
  | .ok amt =>
      let base := currentSwap.getD {}
      ({ s1 with
          swapResults := upd s1.swapResults id (some { base with
            amountToBuy := some (jsParseInt amt)
            attemptCount := some attemptCount
            status := some SwapPhase.completed })
          orderStatus := upd s1.orderStatus id (some 4) },
        [callEff], none)
  | .error _ =>
      let base := currentSwap.getD {}
      ({ s1 with
          swapResults := upd s1.swapResults id (some { base with
            amountToBuy := some 0
            attemptCount := some attemptCount
            status := some SwapPhase.failed }) },
        [callEff],
        some (StepErr.swapError
          ("Swap failed for AGI " ++ Nat.repr id ++ " at attempt " ++ Nat.repr attemptCount)))

/-- `handleSwapInitiated` (status 3): early-return when a swap is pending,
already completed (then set internal status 4), or failed past the retry
ceiling; otherwise initialize a pending record on the first attempt and run
`swapAttempt`. -/
def handleSwapInitiated (env : TickEnv) (s : QMState) (id : Nat) (v : AGIView) :
    QMState × List Effect × Option StepErr :=
  match s.swapResults id with
  | some r =>
      if r.status = some SwapPhase.pending then (s, [], none)
      else if r.status = some SwapPhase.completed then
        ({ s with orderStatus := upd s.orderStatus id (some 4) }, [], none)
      else if shouldSkipTask s id then (s, [], none)
      else swapAttempt env s id v (some r)
  | none =>
      let s1 := { s with swapResults := (upd s.swapResults id
        (some { agiId := some id, status := some SwapPhase.pending, attemptCount := some 0 })) }
      swapAttempt env s1 id v none

/-- `handleSwapCompleted` (status 4): if a swap record exists, deposit the
cached `amountToBuy ?? 0`, set internal status 2, then call
`failedSwapsDB.tryDeleteFailedSwap`, whose `init()` can throw (a non-swap
error caught by `processAGI`'s catch). -/
def handleSwapCompleted (env : TickEnv) (s : QMState) (id : Nat) :
    QMState × List Effect × Option StepErr :=
  match s.swapResults id with
  | none => (s, [], none)
  | some r =>
      let amt := r.amountToBuy.getD 0
      if env.depositOk then
        let s1 := { s with orderStatus := upd s.orderStatus id (some 2) }
        if env.dbEnv.initFails then
          (s1, [Effect.depositCall id amt, Effect.deleteFailed id],
            some (StepErr.other "failed to open failed swaps db"))
        else
          (s1, [Effect.depositCall id amt, Effect.deleteFailed id], none)
      else (s, [Effect.depositCall id amt], some (StepErr.other "deposit failed"))

/-- `handleProceedsReceived` (status 2): delete the internal status and
splice the id out of the queue. -/
def handleProceedsReceived (s : QMState) (id : Nat) :
    QMState × List Effect × Option StepErr :=
  ({ s with orderStatus := upd s.orderStatus id none, queue := s.queue.erase id }, [], none)

/-- `removeFromQueue`: splice the id out, delete its `lastAttemptTime` and
`lastDelay` (its `orderStatus` and `swapResults` deletions are commented out
in the source), and stop the ticker when the queue becomes empty. -/
def removeFromQueue (s : QMState) (id : Nat) : QMState :=
  if s.queue.contains id then
    let q := s.queue.erase id
    { s with
        queue := q
        lastAttemptTime := upd s.lastAttemptTime id none
        lastDelay := upd s.lastDelay id none
        tickerOn := if q.isEmpty then false else s.tickerOn }
  else s

/-- The dispatch `switch (currentStatus)` of `processAGI`; a value outside
`{0, 1, 3, 4, 2}` matches no case and falls through. -/
def dispatch (env : TickEnv) (s : QMState) (id : Nat) (v : AGIView) (eff : Nat) :
    QMState × List Effect × Option StepErr :=
  if eff = 0 then handlePendingDispense env s id
  else if eff = 1 then handleDispensedPendingProceeds s id
  else if eff = 3 then handleSwapInitiated env s id v
  else if eff = 4 then handleSwapCompleted env s id
  else if eff = 2 then handleProceedsReceived s id
  else (s, [], none)

/-- The durable failure row assembled by the ceiling branch of `processAGI`'s
`catch` block: `recordFailedSwap(agiId, errorMessage, agi?.intentType ?? 0, ...)`
with `amount_to_sell` stored as the decimal string of the bigint. -/
def failedRowOf (env : TickEnv) (id : Nat) (agi : Option AGIView) (e : StepErr) : FailedRow :=
  { timestamp := env.now / 1000
    agi_id := id
    error_message := e.message
    intent_type := (agi.map (·.intentType)).getD 0
    asset_to_sell := (agi.map (·.assetToSell)).getD "0x0"
    amount_to_sell := Nat.repr ((agi.map (·.amountToSell)).getD 0)
    asset_to_buy := (agi.map (·.assetToBuy)).getD "0x0"
    order_id := (agi.map (·.orderId)).getD 0
    order_status := (agi.map (·.orderStatus)).getD 0 }

/-- The `catch` block of `processAGI` (lines 332-376).  When the task is now
past the retry ceiling it records a failure row (the `recordFailedSwap` call
throws out of `processAGI` when the store's `init()` fails) and evicts the
id; otherwise it sets the delay according to the error class. -/
def catchPath (env : TickEnv) (s : QMState) (id : Nat) (agi : Option AGIView)
    (e : StepErr) (effs : List Effect) : QMState × List Effect × StepOutcome :=
  if shouldSkipTask s id then
    if env.dbEnv.initFails then
      (s, effs, StepOutcome.escaped (StepErr.other "failed to open failed swaps db"))
    else
      (removeFromQueue s id, effs ++ [Effect.recordFailed (failedRowOf env id agi e)],
        StepOutcome.caught e)
  else
    let delay := if e.isSwap then SWAP_RETRY_DELAY else RETRY_DELAY
    ({ s with
        lastAttemptTime := upd s.lastAttemptTime id (some env.now)
        lastDelay := upd s.lastDelay id (some delay) },
      effs, StepOutcome.caught e)

/-- The body of `processAGI`'s `try` block once the contract read succeeded:
compute the effective status, dispatch, and close with the success delay or
hand the thrown error to the catch block. -/
def stepDispatch (env : TickEnv) (s0 : QMState) (id : Nat) (v : AGIView) :
    QMState × List Effect × StepOutcome :=
  let eff := effectiveStatus v.orderStatus (s0.orderStatus id)
  let res := dispatch env s0 id v eff
  match res.2.2 with
  | none =>
      ({ res.1 with
          lastAttemptTime := upd res.1.lastAttemptTime id (some env.now)
          lastDelay := upd res.1.lastDelay id (some RETRY_DELAY) },
        res.2.1, StepOutcome.ok)
  | some e => catchPath env res.1 id (some v) e res.2.1

/-- The part of `processAGI` after the two early returns: record the attempt
time, read the contract, and run the try body or the catch block. -/
def stepBody (env : TickEnv) (s : QMState) (id : Nat) :
    QMState × List Effect × StepOutcome :=
  let s0 := { s with lastAttemptTime := upd s.lastAttemptTime id (some env.now) }
  match env.view with
  | .error msg => catchPath env s0 id none (StepErr.other msg) []
  | .ok v => stepDispatch env s0 id v

/-- `processAGI`: skip past-ceiling tasks, gate on the retry delay, and run
the step body. -/
def processAGI (env : TickEnv) (s : QMState) (id : Nat) :
    QMState × List Effect × StepOutcome :=
  if shouldSkipTask s id then (s, [], StepOutcome.ok)
  else
    let lastAttempt := (s.lastAttemptTime id).getD 0
    let timeSinceLastAttempt := env.now - lastAttempt
    let requiredDelay := (s.lastDelay id).getD RETRY_DELAY
    if timeSinceLastAttempt < requiredDelay then (s, [], StepOutcome.ok)
    else stepBody env s id

/-- `add(agiId)`: refuse ids already queued or past the retry ceiling,
otherwise append to the tail and start the ticker. -/
def add (s : QMState) (id : Nat) : QMState :=
  if s.queue.contains id then s
  else if shouldSkipTask s id then s
  else { s with queue := s.queue ++ [id], tickerOn := true }

/-- `startProcessing`: single-flight guard, rotate the head to the tail,
process it, and reset the flag in `finally`.  The fourth component lists the
ids processed during the call. -/
def startProcessing (env : TickEnv) (s : QMState) :
    QMState × List Effect × StepOutcome × List Nat :=
  if s.isProcessing then (s, [], StepOutcome.ok, [])
  else
    match s.queue with
    | [] => ({ s with isProcessing := false }, [], StepOutcome.ok, [])
    | hd :: tl =>
        let s1 := { s with isProcessing := true, queue := tl ++ [hd] }
        let r := processAGI env s1 hd
        ({ r.1 with isProcessing := false }, r.2.1, r.2.2, [hd])

/-- One firing of the `setInterval` callback in `startQueueCheck`: process
when idle and non-empty, stop the ticker when the queue is empty.  A
`StepOutcome.escaped` error is absorbed by the `.catch` on
`startProcessing`, so nothing propagates further. -/
def tick (env : TickEnv) (s : QMState) : QMState × List Effect × StepOutcome × List Nat :=
  if !s.isProcessing && !s.queue.isEmpty then startProcessing env s
  else if s.queue.isEmpty then
    ({ s with tickerOn := false }, [], StepOutcome.ok, [])
  else (s, [], StepOutcome.ok, [])

/-- States of one `AGIQueueManager` reachable from the constructor by any
interleaving of `add` calls and ticker firings, with arbitrary environments. -/
inductive Reachable : QMState → Prop
  | init : Reachable initState
  | enqueue (id : Nat) {s : QMState} : Reachable s → Reachable (add s id)
  | step (env : TickEnv) {s : QMState} : Reachable s → Reachable (tick env s).1

/-- Status of an obtained transaction receipt. -/
inductive ReceiptStatus where
  | success
  | reverted
deriving DecidableEq

/-- A receipt oracle: what `getTransactionReceipt` yields on the n-th call —
either a receipt with its status, or an error (receipt not yet available). -/
def ReceiptOracle : Type := Nat → Except String ReceiptStatus

namespace P16

/-- The bounded retry loop of `checkTransactionReceipt` in
`src/unnamed/part_016` (3-second sleeps, `maxRetryTimes = 1000`): each pass
re-fetches the receipt; a fetch error, and also the `throw` on a reverted
receipt, are caught by the inner `catch (retryError)` and count as one more
retry.  Returns `true` when the loop exited via `break` (a successful
receipt), `false` when the retry budget ran out (the `while` just ends). -/
def receiptRetryLoop (oracle : ReceiptOracle) : Nat → Nat → Bool
  | 0, _ => false
  | budget + 1, i =>
      match oracle i with
      | .ok ReceiptStatus.success => true
      | _ => receiptRetryLoop oracle budget (i + 1)

/-- `checkTransactionReceipt` of `src/unnamed/part_016`: first attempt in the
outer `try`; any throw there — including the `throw new Error('Transaction
reverted')` itself — lands in the outer `catch`, which runs the bounded
retry loop.  Whatever happens, the function returns normally: no error can
escape it. -/
def checkTransactionReceipt (oracle : ReceiptOracle) : Except String Unit :=
  match oracle 0 with
  | .ok ReceiptStatus.success => .ok ()
  | _ =>
      match receiptRetryLoop oracle 1000 1 with
      | true => .ok ()
      | false => .ok ()

end P16

namespace UtilsV

/-- The retry loop of `checkTransactionReceipt` in `src/src/utils.ts`:
`while (true)` with 0.5-second sleeps and no retry cap.  The loop has no
exit other than a successful receipt, so the embedding takes a fuel
argument: `some ()` means the loop exited within `fuel` passes, `none`
means it was still running after `fuel` passes. -/
def receiptLoop (oracle : ReceiptOracle) : Nat → Nat → Option Unit
  | 0, _ => none
  | fuel + 1, i =>
      match oracle i with
      | .ok ReceiptStatus.success => some ()
      | _ => receiptLoop oracle fuel (i + 1)

/-- `checkTransactionReceipt` of `src/src/utils.ts`: like the `part_016`
variant but with an unbounded retry loop.  `none` means the call has not
returned after `fuel` receipt fetches. -/
def checkTransactionReceipt (oracle : ReceiptOracle) (fuel : Nat) : Option Unit :=
  match oracle 0 with
  | .ok ReceiptStatus.success => some ()
  | _ => receiptLoop oracle fuel 1

end UtilsV

/-- Observable transaction-executor calls made by `depositAsset`. -/
inductive TxEffect where
  | approveSubmit (amount : Nat)
  | depositWrite
deriving DecidableEq

/-- Environment of one `depositAsset` call: the allowance the solver account
currently has towards the escrow (never read by either source variant), the
outcomes of the approve simulation and its `waitForTransactionReceipt`, the
deposit simulation outcome, and the receipt oracle for the deposit hash. -/
structure TxEnv where
  allowance : Nat
  approveSimOk : Bool
  approveReceipt : ReceiptStatus
  depositSimOk : Bool
  depositOracle : ReceiptOracle

namespace P16

/-- `approveERC20` of `src/unnamed/part_016`: simulate, submit the approve,
wait for its receipt with viem's `waitForTransactionReceipt`, and throw
`'Approval transaction failed'` when that receipt is reverted.  Returns the
submitted transactions and the error, if one was thrown. -/
def approveERC20 (env : TxEnv) (amount : Nat) : List TxEffect × Option String :=
  if !env.approveSimOk then ([], some "approve simulate failed")
  else if env.approveReceipt = ReceiptStatus.reverted then
    ([TxEffect.approveSubmit amount], some "Approval transaction failed")
  else ([TxEffect.approveSubmit amount], none)

/-- `depositAsset` of `src/unnamed/part_016`: unconditionally approve the
buy asset to the escrow (no allowance read), then simulate the deposit,
submit `writeContract(request)` once, and wait for its receipt with
`checkTransactionReceipt`. -/
def depositAsset (env : TxEnv) (_orderIndex amount : Nat) : List TxEffect × Option String :=
  let a := approveERC20 env amount
  match a.2 with
  | some e => (a.1, some e)
  | none =>
      if !env.depositSimOk then (a.1, some "deposit simulate failed")
      else
        match checkTransactionReceipt env.depositOracle with
        | .ok _ => (a.1 ++ [TxEffect.depositWrite], none)
        | .error e => (a.1 ++ [TxEffect.depositWrite], some e)

end P16

namespace UtilsV

/-- `depositAsset` of `src/src/utils.ts`: no approval at all; after the
simulation it calls `writeContract(request)` twice (only the second hash is
used), then waits on the receipt with the unbounded `checkTransactionReceipt`.
The outer `Option` is `none` while that wait has not returned within `fuel`
receipt fetches. -/
def depositAsset (env : TxEnv) (fuel : Nat) (_orderIndex _amount : Nat) :
    List TxEffect × Option (Option String) :=
  if !env.depositSimOk then ([], some (some "deposit simulate failed"))
  else
    match checkTransactionReceipt env.depositOracle fuel with
    | some _ => ([TxEffect.depositWrite, TxEffect.depositWrite], some none)
    | none => ([TxEffect.depositWrite, TxEffect.depositWrite], none)

end UtilsV

/-- The `INSERT OR IGNORE` of `recordFailedSwap`: `agi_id` is the primary
key, so a row whose key is already present is dropped. -/
def insertOrIgnore (db : List FailedRow) (row : FailedRow) : List FailedRow :=
  if db.any (fun r => r.agi_id = row.agi_id) then db else db ++ [row]

/-- `failedSwapsDB.recordFailedSwap`: `await this.init()` runs before the
`try`, so an error opening the database propagates to the caller; the
`db.run` of the insert is inside the `try` and its errors are only logged. -/
def recordFailedSwap (env : DbEnv) (db : List FailedRow) (row : FailedRow) :
    Except String (List FailedRow) :=
  if env.initFails then .error "failed to open failed swaps db"
  else if env.runFails then .ok db
  else .ok (insertOrIgnore db row)

/-- `failedSwapsDB.tryDeleteFailedSwap`: `await this.init()` runs before the
`try`, so an error opening the database propagates; inside the `try`, a
failing `SELECT`, a missing row, or a failing `DELETE` all end the call
normally. -/
def tryDeleteFailedSwap (env : DbEnv) (db : List FailedRow) (id : Nat) :
    Except String (List FailedRow) :=
  if env.initFails then .error "failed to open failed swaps db"
  else if env.getFails then .ok db
  else if !db.any (fun r => r.agi_id = id) then .ok db
  else if env.runFails then .ok db
  else .ok (db.filter (fun r => !(r.agi_id = id : Bool)))

/-- Whether an effect is the recording of a failure row keyed by `id`. -/
def isRecordFor (id : Nat) : Effect → Bool
  | Effect.recordFailed row => row.agi_id = id
  | _ => false

/-- A store environment in which no sqlite call fails. -/
def noDbFail : DbEnv := { initFails := false, getFails := false, runFails := false }

/-- A concrete `viewAGI` result used in the scenario runs. -/
def viewOf (id st : Nat) : AGIView :=
  { intentType := 0, assetToSell := "TKA", amountToSell := 100, assetToBuy := "TKB"
    orderId := id, orderStatus := st }

/-- An environment for the happy-path scenario on intent 7: every external
call succeeds, the contract reports status `st`. -/
def happyEnv (now st : Nat) : TickEnv :=
  { now := now, view := .ok (viewOf 7 st), withdrawOk := true, swapOutcome := .ok 100
    depositOk := true, dbEnv := noDbFail }

/-- The state after the full happy-path lifecycle of intent 7: enqueue, then
five ticks — withdraw (contract 0), mark SwapInitiated (contract 1), swap
(contract 1), deposit (contract 1), cleanup (contract 2). -/
def happyRun : QMState :=
  (tick (happyEnv 50000 2)
    (tick (happyEnv 40000 1)
      (tick (happyEnv 30000 1)
        (tick (happyEnv 20000 1)
          (tick (happyEnv 10000 0) (add initState 7)).1).1).1).1).1

/-- A state in which intent 9 is mid-lifecycle with one failed swap attempt
recorded: internal status `SwapInitiated`, swap record `failed` with
`attemptCount = 1`. -/
def evictState : QMState :=
  { initState with
      queue := [9]
      orderStatus := upd initState.orderStatus 9 (some 3)
      swapResults := (upd initState.swapResults 9 (some
        { agiId := some 9, amountToBuy := some 0, status := some SwapPhase.failed
          attemptCount := some 1 })) }

/-- An environment in which the swap capability fails for intent 9. -/
def evictEnv : TickEnv :=
  { now := 50000, view := .ok (viewOf 9 1), withdrawOk := true
    swapOutcome := .error "no route", depositOk := true, dbEnv := noDbFail }

/-- A state in which intent 3 is ready for its first swap attempt. -/
def bigSwapState : QMState :=
  { initState with queue := [3], orderStatus := upd initState.orderStatus 3 (some 3) }

/-- An environment in which the swap capability returns `2^53 + 1` units of
the buy token for intent 3 — an amount that a float64 cannot represent. -/
def bigSwapEnv : TickEnv :=
  { now := 5000
    view := .ok { intentType := 0, assetToSell := "TKA", amountToSell := 100
                  assetToBuy := "TKB", orderId := 3, orderStatus := 1 }
    withdrawOk := true, swapOutcome := .ok 9007199254740993, depositOk := true
    dbEnv := noDbFail }

/-- A state in which intent 5 has a completed swap record cached. -/
def completedState : QMState :=
  { initState with
      queue := [5]
      orderStatus := upd initState.orderStatus 5 (some 4)
      swapResults := (upd initState.swapResults 5 (some
        { agiId := some 5, amountToBuy := some 250, status := some SwapPhase.completed
          attemptCount := some 1 })) }

/-- An all-success environment for intent 5 at contract status 1. -/
def completedEnv : TickEnv :=
  { now := 5000, view := .ok (viewOf 5 1), withdrawOk := true, swapOutcome := .ok 100
    depositOk := true, dbEnv := noDbFail }

/-- An environment whose contract read fails (a transport error). -/
def readFailEnv : TickEnv :=
  { now := 5000, view := .error "rpc down", withdrawOk := true, swapOutcome := .ok 100
    depositOk := true, dbEnv := noDbFail }

/-- A transaction environment with an ample pre-existing allowance and every
chain call succeeding. -/
def richTxEnv : TxEnv :=
  { allowance := 1000000, approveSimOk := true, approveReceipt := ReceiptStatus.success
    depositSimOk := true, depositOracle := fun _ => .ok ReceiptStatus.success }

/-! Helper lemmas about the embedding, shared by the claim theorems. -/

@[simp] theorem upd_self {α : Type} (m : Nat → Option α) (k : Nat) (v : Option α) :
    upd m k v k = v := by
  simp [upd]

theorem upd_of_ne {α : Type} (m : Nat → Option α) {j k : Nat} (v : Option α) (h : j ≠ k) :
    upd m k v j = m j := by
  simp [upd, h]

theorem handlePendingDispense_fst (env : TickEnv) (s : QMState) (id : Nat) :
    (handlePendingDispense env s id).1 = s := by
  unfold handlePendingDispense
  split <;> rfl

theorem handlePendingDispense_effs (env : TickEnv) (s : QMState) (id : Nat) :
    (handlePendingDispense env s id).2.1 = [Effect.withdrawCall id] := by
  unfold handlePendingDispense
  split <;> rfl

theorem swapAttempt_fst (env : TickEnv) (s : QMState) (id : Nat) (v : AGIView)
    (ex : Option SwapResult) :
    (swapAttempt env s id v ex).1.queue = s.queue ∧
    (swapAttempt env s id v ex).1.lastAttemptTime = s.lastAttemptTime ∧
    (swapAttempt env s id v ex).1.lastDelay = s.lastDelay ∧
    (swapAttempt env s id v ex).1.isProcessing = s.isProcessing ∧
    (swapAttempt env s id v ex).1.tickerOn = s.tickerOn := by
  unfold swapAttempt
  rcases s.swapResults id with _ | c <;> rcases env.swapOutcome with amt | e <;>
    simp

theorem swapAttempt_sr_ne (env : TickEnv) (s : QMState) (id : Nat) (v : AGIView)
    (ex : Option SwapResult) {j : Nat} (h : j ≠ id) :
    (swapAttempt env s id v ex).1.swapResults j = s.swapResults j := by
  unfold swapAttempt
  rcases s.swapResults id with _ | c <;> rcases env.swapOutcome with amt | e <;>
    simp [upd_of_ne _ _ h, upd, h]

theorem swapAttempt_orderStatus_ne (env : TickEnv) (s : QMState) (id : Nat) (v : AGIView)
    (ex : Option SwapResult) {j : Nat} (h : j ≠ id) :
    (swapAttempt env s id v ex).1.orderStatus j = s.orderStatus j := by
  unfold swapAttempt
  rcases s.swapResults id with _ | c <;> rcases env.swapOutcome with amt | e <;>
    simp [upd, h]

theorem swapAttempt_ok (env : TickEnv) (s : QMState) (id : Nat) (v : AGIView)
    (ex : Option SwapResult) {amt : Nat} (henv : env.swapOutcome = .ok amt) :
    (swapAttempt env s id v ex).1.swapResults id = some
      { (s.swapResults id).getD {} with
          amountToBuy := some (jsParseInt amt)
          attemptCount := some (attemptsOf ex + 1)
          status := some SwapPhase.completed } ∧
    (swapAttempt env s id v ex).1.orderStatus id = some 4 ∧
    (swapAttempt env s id v ex).2.2 = none := by
  unfold swapAttempt
  rcases hsr : s.swapResults id with _ | c <;>
    simp [henv, hsr, attemptsOf, upd]

theorem swapAttempt_err (env : TickEnv) (s : QMState) (id : Nat) (v : AGIView)
    (ex : Option SwapResult) {e : String} (henv : env.swapOutcome = .error e) :
    (swapAttempt env s id v ex).1.swapResults id = some
      { (s.swapResults id).getD {} with
          amountToBuy := some 0
          attemptCount := some (attemptsOf ex + 1)
          status := some SwapPhase.failed } ∧
    (swapAttempt env s id v ex).1.orderStatus = s.orderStatus ∧
    (swapAttempt env s id v ex).2.2 = some (StepErr.swapError
      ("Swap failed for AGI " ++ Nat.repr id ++ " at attempt "
        ++ Nat.repr (attemptsOf ex + 1))) := by
  unfold swapAttempt
  rcases hsr : s.swapResults id with _ | c <;>
    simp [henv, hsr, attemptsOf, upd]

theorem swapAttempt_effs (env : TickEnv) (s : QMState) (id : Nat) (v : AGIView)
    (ex : Option SwapResult) :
    (swapAttempt env s id v ex).2.1 =
      [Effect.swapCall id v.assetToSell v.assetToBuy (Nat.repr v.amountToSell)] := by
  unfold swapAttempt
  rcases s.swapResults id with _ | c <;> rcases env.swapOutcome with amt | e <;> simp

theorem handleSwapInitiated_pending (env : TickEnv) (s : QMState) (id : Nat) (v : AGIView)
    {r : SwapResult} (hr : s.swapResults id = some r)
    (hp : r.status = some SwapPhase.pending) :
    handleSwapInitiated env s id v = (s, [], none) := by
  unfold handleSwapInitiated
  simp [hr, hp]

theorem handleSwapInitiated_completed (env : TickEnv) (s : QMState) (id : Nat) (v : AGIView)
    {r : SwapResult} (hr : s.swapResults id = some r)
    (hc : r.status = some SwapPhase.completed) :
    handleSwapInitiated env s id v =
      ({ s with orderStatus := upd s.orderStatus id (some 4) }, [], none) := by
  unfold handleSwapInitiated
  simp [hr, hc]

theorem handleSwapInitiated_skip (env : TickEnv) (s : QMState) (id : Nat) (v : AGIView)
    {r : SwapResult} (hr : s.swapResults id = some r)
    (hp : r.status ≠ some SwapPhase.pending) (hc : r.status ≠ some SwapPhase.completed)
    (hs : shouldSkipTask s id = true) :
    handleSwapInitiated env s id v = (s, [], none) := by
  unfold handleSwapInitiated
  simp [hr, hp, hc, hs]

theorem handleSwapInitiated_retry (env : TickEnv) (s : QMState) (id : Nat) (v : AGIView)
    {r : SwapResult} (hr : s.swapResults id = some r)
    (hp : r.status ≠ some SwapPhase.pending) (hc : r.status ≠ some SwapPhase.completed)
    (hs : shouldSkipTask s id = false) :
    handleSwapInitiated env s id v = swapAttempt env s id v (some r) := by
  unfold handleSwapInitiated
  simp [hr, hp, hc, hs]

theorem handleSwapInitiated_first (env : TickEnv) (s : QMState) (id : Nat) (v : AGIView)
    (hr : s.swapResults id = none) :
    handleSwapInitiated env s id v =
      swapAttempt env { s with swapResults := (upd s.swapResults id
        (some { agiId := some id, status := some SwapPhase.pending, attemptCount := some 0 })) }
        id v none := by
  unfold handleSwapInitiated
  simp [hr]

theorem handleSwapCompleted_none (env : TickEnv) (s : QMState) (id : Nat)
    (hr : s.swapResults id = none) :
    handleSwapCompleted env s id = (s, [], none) := by
  unfold handleSwapCompleted
  simp [hr]

theorem handleSwapCompleted_fail (env : TickEnv) (s : QMState) (id : Nat)
    {r : SwapResult} (hr : s.swapResults id = some r) (hd : env.depositOk = false) :
    handleSwapCompleted env s id =
      (s, [Effect.depositCall id (r.amountToBuy.getD 0)],
        some (StepErr.other "deposit failed")) := by
  unfold handleSwapCompleted
  simp [hr, hd]

theorem handleSwapCompleted_ok (env : TickEnv) (s : QMState) (id : Nat)
    {r : SwapResult} (hr : s.swapResults id = some r) (hd : env.depositOk = true) :
    handleSwapCompleted env s id =
      ({ s with orderStatus := upd s.orderStatus id (some 2) },
        [Effect.depositCall id (r.amountToBuy.getD 0), Effect.deleteFailed id],
        if env.dbEnv.initFails then some (StepErr.other "failed to open failed swaps db")
        else none) := by
  unfold handleSwapCompleted
  rcases h : env.dbEnv.initFails <;> simp [hr, hd, h]

theorem removeFromQueue_queue (s : QMState) (id : Nat) :
    (removeFromQueue s id).queue = s.queue.erase id := by
  unfold removeFromQueue
  rcases h : s.queue.contains id <;> simp
  · rw [List.erase_of_not_mem]
    simpa using h

theorem removeFromQueue_sr (s : QMState) (id : Nat) :
    (removeFromQueue s id).swapResults = s.swapResults := by
  unfold removeFromQueue
  split <;> rfl

theorem removeFromQueue_orderStatus (s : QMState) (id : Nat) :
    (removeFromQueue s id).orderStatus = s.orderStatus := by
  unfold removeFromQueue
  split <;> rfl

theorem removeFromQueue_lastX (s : QMState) (id : Nat) :
    (removeFromQueue s id).lastAttemptTime id = none ∨
      (removeFromQueue s id).lastAttemptTime = s.lastAttemptTime := by
  unfold removeFromQueue
  split <;> simp

theorem handleSwapInitiated_frame (env : TickEnv) (s : QMState) (id : Nat) (v : AGIView) :
    (handleSwapInitiated env s id v).1.queue = s.queue ∧
    (handleSwapInitiated env s id v).1.lastAttemptTime = s.lastAttemptTime ∧
    (handleSwapInitiated env s id v).1.lastDelay = s.lastDelay := by
  rcases hr : s.swapResults id with _ | r
  · rw [handleSwapInitiated_first env s id v hr]
    exact ⟨(swapAttempt_fst _ _ _ _ _).1, (swapAttempt_fst _ _ _ _ _).2.1,
      (swapAttempt_fst _ _ _ _ _).2.2.1⟩
  · by_cases hp : r.status = some SwapPhase.pending
    · rw [handleSwapInitiated_pending env s id v hr hp]
      exact ⟨rfl, rfl, rfl⟩
    · by_cases hc : r.status = some SwapPhase.completed
      · rw [handleSwapInitiated_completed env s id v hr hc]
        exact ⟨rfl, rfl, rfl⟩
      · by_cases hs : shouldSkipTask s id
        · rw [handleSwapInitiated_skip env s id v hr hp hc hs]
          exact ⟨rfl, rfl, rfl⟩
        · rw [handleSwapInitiated_retry env s id v hr hp hc (by simpa using hs)]
          exact ⟨(swapAttempt_fst _ _ _ _ _).1, (swapAttempt_fst _ _ _ _ _).2.1,
            (swapAttempt_fst _ _ _ _ _).2.2.1⟩

theorem handleSwapInitiated_sr_ne (env : TickEnv) (s : QMState) (id : Nat) (v : AGIView)
    {j : Nat} (h : j ≠ id) :
    (handleSwapInitiated env s id v).1.swapResults j = s.swapResults j := by
  rcases hr : s.swapResults id with _ | r
  · rw [handleSwapInitiated_first env s id v hr]
    rw [swapAttempt_sr_ne _ _ _ _ _ h]
    simp [upd, h]
  · by_cases hp : r.status = some SwapPhase.pending
    · rw [handleSwapInitiated_pending env s id v hr hp]
    · by_cases hc : r.status = some SwapPhase.completed
      · rw [handleSwapInitiated_completed env s id v hr hc]
      · by_cases hs : shouldSkipTask s id
        · rw [handleSwapInitiated_skip env s id v hr hp hc hs]
        · rw [handleSwapInitiated_retry env s id v hr hp hc (by simpa using hs)]
          exact swapAttempt_sr_ne _ _ _ _ _ h

theorem handleSwapInitiated_orderStatus_ne (env : TickEnv) (s : QMState) (id : Nat)
    (v : AGIView) {j : Nat} (h : j ≠ id) :
    (handleSwapInitiated env s id v).1.orderStatus j = s.orderStatus j := by
  rcases hr : s.swapResults id with _ | r
  · rw [handleSwapInitiated_first env s id v hr]
    exact swapAttempt_orderStatus_ne _ _ _ _ _ h
  · by_cases hp : r.status = some SwapPhase.pending
    · rw [handleSwapInitiated_pending env s id v hr hp]
    · by_cases hc : r.status = some SwapPhase.completed
      · rw [handleSwapInitiated_completed env s id v hr hc]
        simp [upd, h]
      · by_cases hs : shouldSkipTask s id
        · rw [handleSwapInitiated_skip env s id v hr hp hc hs]
        · rw [handleSwapInitiated_retry env s id v hr hp hc (by simpa using hs)]
          exact swapAttempt_orderStatus_ne _ _ _ _ _ h

theorem dispatch_frame (env : TickEnv) (s : QMState) (id : Nat) (v : AGIView) (eff : Nat) :
    (dispatch env s id v eff).1.lastAttemptTime = s.lastAttemptTime ∧
    (dispatch env s id v eff).1.lastDelay = s.lastDelay ∧
    ((dispatch env s id v eff).1.queue = s.queue ∨
      (dispatch env s id v eff).1.queue = s.queue.erase id) := by
  unfold dispatch
  split_ifs
  · rw [handlePendingDispense_fst]
    exact ⟨rfl, rfl, Or.inl rfl⟩
  · exact ⟨rfl, rfl, Or.inl rfl⟩
  · exact ⟨(handleSwapInitiated_frame env s id v).2.1,
      (handleSwapInitiated_frame env s id v).2.2,
      Or.inl (handleSwapInitiated_frame env s id v).1⟩
  · rcases hr : s.swapResults id with _ | r
    · rw [handleSwapCompleted_none env s id hr]
      exact ⟨rfl, rfl, Or.inl rfl⟩
    · rcases hd : env.depositOk
      · rw [handleSwapCompleted_fail env s id hr hd]
        exact ⟨rfl, rfl, Or.inl rfl⟩
      · rw [handleSwapCompleted_ok env s id hr hd]
        exact ⟨rfl, rfl, Or.inl rfl⟩
  · exact ⟨rfl, rfl, Or.inr rfl⟩
  · exact ⟨rfl, rfl, Or.inl rfl⟩

theorem dispatch_queue_of_err (env : TickEnv) (s : QMState) (id : Nat) (v : AGIView)
    (eff : Nat) {e : StepErr} (herr : (dispatch env s id v eff).2.2 = some e) :
    (dispatch env s id v eff).1.queue = s.queue := by
  revert herr
  unfold dispatch
  split_ifs <;> intro herr
  · rw [handlePendingDispense_fst]
  · cases herr
  · rcases hr : s.swapResults id with _ | r
    · rw [handleSwapInitiated_first env s id v hr]
      exact (swapAttempt_fst _ _ _ _ _).1
    · by_cases hp : r.status = some SwapPhase.pending
      · rw [handleSwapInitiated_pending env s id v hr hp]
      · by_cases hc : r.status = some SwapPhase.completed
        · rw [handleSwapInitiated_completed env s id v hr hc]
        · by_cases hs : shouldSkipTask s id
          · rw [handleSwapInitiated_skip env s id v hr hp hc hs]
          · rw [handleSwapInitiated_retry env s id v hr hp hc (by simpa using hs)]
            exact (swapAttempt_fst _ _ _ _ _).1
  · rcases hr : s.swapResults id with _ | r
    · rw [handleSwapCompleted_none env s id hr]
    · rcases hd : env.depositOk
      · rw [handleSwapCompleted_fail env s id hr hd]
      · rw [handleSwapCompleted_ok env s id hr hd]
  · cases herr
  · cases herr

theorem dispatch_sr_ne (env : TickEnv) (s : QMState) (id : Nat) (v : AGIView) (eff : Nat)
    {j : Nat} (h : j ≠ id) :
    (dispatch env s id v eff).1.swapResults j = s.swapResults j := by
  unfold dispatch
  split_ifs
  · rw [handlePendingDispense_fst]
  · rfl
  · exact handleSwapInitiated_sr_ne env s id v h
  · rcases hr : s.swapResults id with _ | r
    · rw [handleSwapCompleted_none env s id hr]
    · rcases hd : env.depositOk
      · rw [handleSwapCompleted_fail env s id hr hd]
      · rw [handleSwapCompleted_ok env s id hr hd]
  · rfl
  · rfl

theorem dispatch_sr_completed (env : TickEnv) (s : QMState) (id : Nat) (v : AGIView)
    (eff : Nat) {r : SwapResult} (hr : s.swapResults id = some r)
    (hc : r.status = some SwapPhase.completed) :
    (dispatch env s id v eff).1.swapResults id = some r := by
  unfold dispatch
  split_ifs
  · rw [handlePendingDispense_fst]; exact hr
  · exact hr
  · rw [handleSwapInitiated_completed env s id v hr hc]; exact hr
  · rcases hd : env.depositOk
    · rw [handleSwapCompleted_fail env s id hr hd]; exact hr
    · rw [handleSwapCompleted_ok env s id hr hd]; exact hr
  · exact hr
  · exact hr

theorem swapAttempt_attempts (env : TickEnv) (s : QMState) (id : Nat) (v : AGIView)
    (ex : Option SwapResult) :
    attemptsOf ((swapAttempt env s id v ex).1.swapResults id) = attemptsOf ex + 1 := by
  rcases henv : env.swapOutcome with e | amt
  · rw [(swapAttempt_err env s id v ex henv).1]
    simp [attemptsOf]
  · rw [(swapAttempt_ok env s id v ex henv).1]
    simp [attemptsOf]

theorem handleSwapInitiated_attempts (env : TickEnv) (s : QMState) (id : Nat) (v : AGIView) :
    attemptsOf (s.swapResults id) ≤
      attemptsOf ((handleSwapInitiated env s id v).1.swapResults id) := by
  rcases hr : s.swapResults id with _ | r
  · rw [handleSwapInitiated_first env s id v hr, swapAttempt_attempts]
    simp [attemptsOf]
  · by_cases hp : r.status = some SwapPhase.pending
    · rw [handleSwapInitiated_pending env s id v hr hp, hr]
    · by_cases hc : r.status = some SwapPhase.completed
      · rw [handleSwapInitiated_completed env s id v hr hc]
        simp [hr]
      · by_cases hs : shouldSkipTask s id
        · rw [handleSwapInitiated_skip env s id v hr hp hc hs, hr]
        · rw [handleSwapInitiated_retry env s id v hr hp hc (by simpa using hs),
            swapAttempt_attempts]
          simp [attemptsOf, hr]

theorem dispatch_attempts (env : TickEnv) (s : QMState) (id : Nat) (v : AGIView) (eff : Nat)
    (j : Nat) :
    attemptsOf (s.swapResults j) ≤ attemptsOf ((dispatch env s id v eff).1.swapResults j) := by
  by_cases h : j = id
  · subst h
    unfold dispatch
    split_ifs
    · rw [handlePendingDispense_fst]
    · exact le_refl _
    · exact handleSwapInitiated_attempts env s j v
    · rcases hr : s.swapResults j with _ | r
      · rw [handleSwapCompleted_none env s j hr]
        simp [hr]
      · rcases hd : env.depositOk
        · rw [handleSwapCompleted_fail env s j hr hd]
          simp [hr]
        · rw [handleSwapCompleted_ok env s j hr hd]
          simp [hr]
    · exact le_refl _
    · exact le_refl _
  · rw [dispatch_sr_ne env s id v eff h]

theorem dispatch_orderStatus_vals (env : TickEnv) (s : QMState) (id : Nat) (v : AGIView)
    (eff : Nat) (j : Nat) {x : Nat}
    (h : (dispatch env s id v eff).1.orderStatus j = some x) :
    s.orderStatus j = some x ∨ x = 2 ∨ x = 3 ∨ x = 4 := by
  by_cases hj : j = id
  · subst hj
    revert h
    unfold dispatch
    split_ifs <;> intro h
    · rw [handlePendingDispense_fst] at h; exact Or.inl h
    · simp only [handleDispensedPendingProceeds, upd_self] at h
      cases Option.some.inj h
      right; right; left; rfl
    · rcases hr : s.swapResults j with _ | r
      · rw [handleSwapInitiated_first env s j v hr] at h
        rcases henv : env.swapOutcome with e | amt
        · rw [(swapAttempt_err _ _ _ _ _ henv).2.1] at h
          exact Or.inl h
        · rw [(swapAttempt_ok _ _ _ _ _ henv).2.1] at h
          cases Option.some.inj h
          right; right; right; rfl
      · by_cases hp : r.status = some SwapPhase.pending
        · rw [handleSwapInitiated_pending env s j v hr hp] at h; exact Or.inl h
        · by_cases hc : r.status = some SwapPhase.completed
          · rw [handleSwapInitiated_completed env s j v hr hc] at h
            simp only [upd_self] at h
            cases Option.some.inj h
            right; right; right; rfl
          · by_cases hs : shouldSkipTask s j
            · rw [handleSwapInitiated_skip env s j v hr hp hc hs] at h; exact Or.inl h
            · rw [handleSwapInitiated_retry env s j v hr hp hc (by simpa using hs)] at h
              rcases henv : env.swapOutcome with e | amt
              · rw [(swapAttempt_err _ _ _ _ _ henv).2.1] at h
                exact Or.inl h
              · rw [(swapAttempt_ok _ _ _ _ _ henv).2.1] at h
                cases Option.some.inj h
                right; right; right; rfl
    · rcases hr : s.swapResults j with _ | r
      · rw [handleSwapCompleted_none env s j hr] at h; exact Or.inl h
      · rcases hd : env.depositOk
        · rw [handleSwapCompleted_fail env s j hr hd] at h; exact Or.inl h
        · rw [handleSwapCompleted_ok env s j hr hd] at h
          simp only [upd_self] at h
          cases Option.some.inj h
          right; left; rfl
    · simp only [handleProceedsReceived, upd_self] at h
      cases h
    · exact Or.inl h
  · revert h
    unfold dispatch
    split_ifs <;> intro h
    · rw [handlePendingDispense_fst] at h; exact Or.inl h
    · simp only [handleDispensedPendingProceeds, upd, if_neg hj] at h
      exact Or.inl h
    · rw [handleSwapInitiated_orderStatus_ne env s id v hj] at h; exact Or.inl h
    · rcases hr : s.swapResults id with _ | r
      · rw [handleSwapCompleted_none env s id hr] at h; exact Or.inl h
      · rcases hd : env.depositOk
        · rw [handleSwapCompleted_fail env s id hr hd] at h; exact Or.inl h
        · rw [handleSwapCompleted_ok env s id hr hd] at h
          simp only [upd, if_neg hj] at h
          exact Or.inl h
    · simp only [handleProceedsReceived, upd, if_neg hj] at h
      exact Or.inl h
    · exact Or.inl h

theorem dispatch_completed_new (env : TickEnv) (s : QMState) (id : Nat) (v : AGIView)
    (eff : Nat) (j : Nat) {r : SwapResult}
    (h : (dispatch env s id v eff).1.swapResults j = some r)
    (hc : r.status = some SwapPhase.completed) :
    s.swapResults j = some r ∨
      (r.amountToBuy.isSome ∧ (dispatch env s id v eff).1.orderStatus j = some 4) := by
  by_cases hj : j = id
  · subst hj
    revert h
    unfold dispatch
    split_ifs <;> intro h
    · rw [handlePendingDispense_fst] at h ⊢; exact Or.inl h
    · exact Or.inl h
    · rcases hr : s.swapResults j with _ | r0
      · rw [handleSwapInitiated_first env s j v hr] at h ⊢
        rcases henv : env.swapOutcome with e | amt
        · rw [(swapAttempt_err _ _ _ _ _ henv).1] at h
          cases Option.some.inj h
          simp at hc
        · rw [(swapAttempt_ok _ _ _ _ _ henv).1] at h
          cases Option.some.inj h
          exact Or.inr ⟨rfl, (swapAttempt_ok _ _ _ _ _ henv).2.1⟩
      · by_cases hp : r0.status = some SwapPhase.pending
        · rw [handleSwapInitiated_pending env s j v hr hp] at h
          exact Or.inl (hr.symm.trans h)
        · by_cases hcc : r0.status = some SwapPhase.completed
          · rw [handleSwapInitiated_completed env s j v hr hcc] at h
            exact Or.inl (hr.symm.trans h)
          · by_cases hs : shouldSkipTask s j
            · rw [handleSwapInitiated_skip env s j v hr hp hcc hs] at h
              exact Or.inl (hr.symm.trans h)
            · rw [handleSwapInitiated_retry env s j v hr hp hcc (by simpa using hs)] at h ⊢
              rcases henv : env.swapOutcome with e | amt
              · rw [(swapAttempt_err _ _ _ _ _ henv).1] at h
                cases Option.some.inj h
                simp at hc
              · rw [(swapAttempt_ok _ _ _ _ _ henv).1] at h
                cases Option.some.inj h
                exact Or.inr ⟨rfl, (swapAttempt_ok _ _ _ _ _ henv).2.1⟩
    · rcases hr : s.swapResults j with _ | r0
      · rw [handleSwapCompleted_none env s j hr] at h
        exact Or.inl (hr.symm.trans h)
      · rcases hd : env.depositOk
        · rw [handleSwapCompleted_fail env s j hr hd] at h
          exact Or.inl (hr.symm.trans h)
        · rw [handleSwapCompleted_ok env s j hr hd] at h
          exact Or.inl (hr.symm.trans h)
    · exact Or.inl h
    · exact Or.inl h
  · rw [dispatch_sr_ne env s id v eff hj] at h
    exact Or.inl h

theorem dispatch_swapCall (env : TickEnv) (s : QMState) (id : Nat) (v : AGIView) (eff : Nat)
    {j : Nat} {a b c : String} (h : Effect.swapCall j a b c ∈ (dispatch env s id v eff).2.1) :
    j = id ∧ ∀ r, s.swapResults id = some r → r.status ≠ some SwapPhase.completed := by
  revert h
  unfold dispatch
  split_ifs <;> intro h
  · rw [handlePendingDispense_effs] at h
    simp at h
  · simp [handleDispensedPendingProceeds] at h
  · rcases hr : s.swapResults id with _ | r0
    · rw [handleSwapInitiated_first env s id v hr, swapAttempt_effs] at h
      simp at h
      exact ⟨h.1, by simp [hr]⟩
    · by_cases hp : r0.status = some SwapPhase.pending
      · rw [handleSwapInitiated_pending env s id v hr hp] at h; simp at h
      · by_cases hcc : r0.status = some SwapPhase.completed
        · rw [handleSwapInitiated_completed env s id v hr hcc] at h; simp at h
        · by_cases hs : shouldSkipTask s id
          · rw [handleSwapInitiated_skip env s id v hr hp hcc hs] at h; simp at h
          · rw [handleSwapInitiated_retry env s id v hr hp hcc (by simpa using hs),
              swapAttempt_effs] at h
            simp at h
            refine ⟨h.1, ?_⟩
            intro r hr2
            cases Option.some.inj hr2
            exact hcc
  · rcases hr : s.swapResults id with _ | r0
    · rw [handleSwapCompleted_none env s id hr] at h; simp at h
    · rcases hd : env.depositOk
      · rw [handleSwapCompleted_fail env s id hr hd] at h; simp at h
      · rw [handleSwapCompleted_ok env s id hr hd] at h; simp at h
  · simp [handleProceedsReceived] at h
  · simp at h

theorem dispatch_depositCall (env : TickEnv) (s : QMState) (id : Nat) (v : AGIView)
    (eff : Nat) {j amt : Nat} (h : Effect.depositCall j amt ∈ (dispatch env s id v eff).2.1) :
    j = id ∧ ∃ r, s.swapResults id = some r ∧ amt = r.amountToBuy.getD 0 := by
  revert h
  unfold dispatch
  split_ifs <;> intro h
  · rw [handlePendingDispense_effs] at h; simp at h
  · simp [handleDispensedPendingProceeds] at h
  · rcases hr : s.swapResults id with _ | r0
    · rw [handleSwapInitiated_first env s id v hr, swapAttempt_effs] at h; simp at h
    · by_cases hp : r0.status = some SwapPhase.pending
      · rw [handleSwapInitiated_pending env s id v hr hp] at h; simp at h
      · by_cases hcc : r0.status = some SwapPhase.completed
        · rw [handleSwapInitiated_completed env s id v hr hcc] at h; simp at h
        · by_cases hs : shouldSkipTask s id
          · rw [handleSwapInitiated_skip env s id v hr hp hcc hs] at h; simp at h
          · rw [handleSwapInitiated_retry env s id v hr hp hcc (by simpa using hs),
              swapAttempt_effs] at h
            simp at h
  · rcases hr : s.swapResults id with _ | r0
    · rw [handleSwapCompleted_none env s id hr] at h; simp at h
    · rcases hd : env.depositOk
      · rw [handleSwapCompleted_fail env s id hr hd] at h
        simp at h
        exact ⟨h.1, r0, rfl, h.2⟩
      · rw [handleSwapCompleted_ok env s id hr hd] at h
        simp at h
        exact ⟨h.1, r0, rfl, h.2⟩
  · simp [handleProceedsReceived] at h
  · simp at h

theorem dispatch_no_record (env : TickEnv) (s : QMState) (id : Nat) (v : AGIView) (eff : Nat)
    (row : FailedRow) : Effect.recordFailed row ∉ (dispatch env s id v eff).2.1 := by
  unfold dispatch
  split_ifs
  · rw [handlePendingDispense_effs]; simp
  · simp [handleDispensedPendingProceeds]
  · rcases hr : s.swapResults id with _ | r0
    · rw [handleSwapInitiated_first env s id v hr, swapAttempt_effs]; simp
    · by_cases hp : r0.status = some SwapPhase.pending
      · rw [handleSwapInitiated_pending env s id v hr hp]; simp
      · by_cases hcc : r0.status = some SwapPhase.completed
        · rw [handleSwapInitiated_completed env s id v hr hcc]; simp
        · by_cases hs : shouldSkipTask s id
          · rw [handleSwapInitiated_skip env s id v hr hp hcc hs]; simp
          · rw [handleSwapInitiated_retry env s id v hr hp hcc (by simpa using hs),
              swapAttempt_effs]
            simp
  · rcases hr : s.swapResults id with _ | r0
    · rw [handleSwapCompleted_none env s id hr]; simp
    · rcases hd : env.depositOk
      · rw [handleSwapCompleted_fail env s id hr hd]; simp
      · rw [handleSwapCompleted_ok env s id hr hd]; simp
  · simp [handleProceedsReceived]
  · simp

theorem catchPath_noskip (env : TickEnv) (s : QMState) (id : Nat) (agi : Option AGIView)
    (e : StepErr) (effs : List Effect) (hs : shouldSkipTask s id = false) :
    catchPath env s id agi e effs =
      ({ s with
          lastAttemptTime := upd s.lastAttemptTime id (some env.now)
          lastDelay := (upd s.lastDelay id
            (some (if e.isSwap then SWAP_RETRY_DELAY else RETRY_DELAY))) },
        effs, StepOutcome.caught e) := by
  unfold catchPath
  simp [hs]

theorem catchPath_escape (env : TickEnv) (s : QMState) (id : Nat) (agi : Option AGIView)
    (e : StepErr) (effs : List Effect) (hs : shouldSkipTask s id = true)
    (hi : env.dbEnv.initFails = true) :
    catchPath env s id agi e effs =
      (s, effs, StepOutcome.escaped (StepErr.other "failed to open failed swaps db")) := by
  unfold catchPath
  simp [hs, hi]

theorem catchPath_evict (env : TickEnv) (s : QMState) (id : Nat) (agi : Option AGIView)
    (e : StepErr) (effs : List Effect) (hs : shouldSkipTask s id = true)
    (hi : env.dbEnv.initFails = false) :
    catchPath env s id agi e effs =
      (removeFromQueue s id, effs ++ [Effect.recordFailed (failedRowOf env id agi e)],
        StepOutcome.caught e) := by
  unfold catchPath
  simp [hs, hi]

theorem stepDispatch_ok (env : TickEnv) (s0 : QMState) (id : Nat) (v : AGIView)
    (h : (dispatch env s0 id v (effectiveStatus v.orderStatus (s0.orderStatus id))).2.2 = none) :
    stepDispatch env s0 id v =
      ({ (dispatch env s0 id v (effectiveStatus v.orderStatus (s0.orderStatus id))).1 with
          lastAttemptTime := (upd (dispatch env s0 id v
            (effectiveStatus v.orderStatus (s0.orderStatus id))).1.lastAttemptTime id
            (some env.now))
          lastDelay := (upd (dispatch env s0 id v
            (effectiveStatus v.orderStatus (s0.orderStatus id))).1.lastDelay id
            (some RETRY_DELAY)) },
        (dispatch env s0 id v (effectiveStatus v.orderStatus (s0.orderStatus id))).2.1,
        StepOutcome.ok) := by
  unfold stepDispatch
  dsimp only
  rw [h]

theorem stepDispatch_err (env : TickEnv) (s0 : QMState) (id : Nat) (v : AGIView) {e : StepErr}
    (h : (dispatch env s0 id v (effectiveStatus v.orderStatus (s0.orderStatus id))).2.2 = some e) :
    stepDispatch env s0 id v =
      catchPath env (dispatch env s0 id v
          (effectiveStatus v.orderStatus (s0.orderStatus id))).1 id (some v) e
        (dispatch env s0 id v (effectiveStatus v.orderStatus (s0.orderStatus id))).2.1 := by
  unfold stepDispatch
  dsimp only
  rw [h]

theorem stepBody_viewError (env : TickEnv) (s : QMState) (id : Nat) {msg : String}
    (hv : env.view = .error msg) :
    stepBody env s id =
      catchPath env { s with lastAttemptTime := upd s.lastAttemptTime id (some env.now) }
        id none (StepErr.other msg) [] := by
  unfold stepBody
  rw [hv]

theorem stepBody_viewOk (env : TickEnv) (s : QMState) (id : Nat) {v : AGIView}
    (hv : env.view = .ok v) :
    stepBody env s id =
      stepDispatch env { s with lastAttemptTime := upd s.lastAttemptTime id (some env.now) }
        id v := by
  unfold stepBody
  rw [hv]

theorem processAGI_skip (env : TickEnv) (s : QMState) (id : Nat)
    (hsk : shouldSkipTask s id = true) :
    processAGI env s id = (s, [], StepOutcome.ok) := by
  unfold processAGI
  simp [hsk]

theorem processAGI_gate (env : TickEnv) (s : QMState) (id : Nat)
    (hsk : shouldSkipTask s id = false)
    (hg : env.now - (s.lastAttemptTime id).getD 0 < (s.lastDelay id).getD RETRY_DELAY) :
    processAGI env s id = (s, [], StepOutcome.ok) := by
  unfold processAGI
  simp [hsk, hg]

theorem processAGI_run (env : TickEnv) (s : QMState) (id : Nat)
    (hsk : shouldSkipTask s id = false)
    (hg : ¬ env.now - (s.lastAttemptTime id).getD 0 < (s.lastDelay id).getD RETRY_DELAY) :
    processAGI env s id = stepBody env s id := by
  unfold processAGI
  simp [hsk, hg]

theorem catchPath_queue (env : TickEnv) (s : QMState) (id : Nat) (agi : Option AGIView)
    (e : StepErr) (effs : List Effect) :
    (catchPath env s id agi e effs).1.queue = s.queue ∨
      (catchPath env s id agi e effs).1.queue = s.queue.erase id := by
  unfold catchPath
  split_ifs
  · exact Or.inl rfl
  · exact Or.inr (removeFromQueue_queue s id)
  · exact Or.inl rfl
  · exact Or.inl rfl

theorem catchPath_sr (env : TickEnv) (s : QMState) (id : Nat) (agi : Option AGIView)
    (e : StepErr) (effs : List Effect) :
    (catchPath env s id agi e effs).1.swapResults = s.swapResults := by
  unfold catchPath
  split_ifs
  · rfl
  · exact removeFromQueue_sr s id
  · rfl
  · rfl

theorem catchPath_orderStatus (env : TickEnv) (s : QMState) (id : Nat) (agi : Option AGIView)
    (e : StepErr) (effs : List Effect) :
    (catchPath env s id agi e effs).1.orderStatus = s.orderStatus := by
  unfold catchPath
  split_ifs
  · rfl
  · exact removeFromQueue_orderStatus s id
  · rfl
  · rfl

theorem catchPath_effs (env : TickEnv) (s : QMState) (id : Nat) (agi : Option AGIView)
    (e : StepErr) (effs : List Effect) {x : Effect}
    (h : x ∈ (catchPath env s id agi e effs).2.1) :
    x ∈ effs ∨ ∃ row, x = Effect.recordFailed row := by
  revert h
  unfold catchPath
  split_ifs <;> intro h
  · exact Or.inl h
  · rcases List.mem_append.1 h with h | h
    · exact Or.inl h
    · simp at h
      exact Or.inr ⟨_, h⟩
  · exact Or.inl h
  · exact Or.inl h

theorem stepDispatch_queue (env : TickEnv) (s0 : QMState) (id : Nat) (v : AGIView) :
    (stepDispatch env s0 id v).1.queue = s0.queue ∨
      (stepDispatch env s0 id v).1.queue = s0.queue.erase id := by
  rcases herr : (dispatch env s0 id v (effectiveStatus v.orderStatus (s0.orderStatus id))).2.2
    with _ | e
  · rw [stepDispatch_ok env s0 id v herr]
    exact (dispatch_frame env s0 id v _).2.2
  · rw [stepDispatch_err env s0 id v herr]
    rcases catchPath_queue env _ id (some v) e _ with h | h
    · rw [h, dispatch_queue_of_err env s0 id v _ herr]
      exact Or.inl rfl
    · rw [h, dispatch_queue_of_err env s0 id v _ herr]
      exact Or.inr rfl

theorem stepBody_queue (env : TickEnv) (s : QMState) (id : Nat) :
    (stepBody env s id).1.queue = s.queue ∨
      (stepBody env s id).1.queue = s.queue.erase id := by
  rcases hv : env.view with msg | v
  · rw [stepBody_viewError env s id hv]
    exact catchPath_queue env _ id none _ []
  · rw [stepBody_viewOk env s id hv]
    exact stepDispatch_queue env _ id v

theorem processAGI_queue (env : TickEnv) (s : QMState) (id : Nat) :
    (processAGI env s id).1.queue = s.queue ∨
      (processAGI env s id).1.queue = s.queue.erase id := by
  rcases hsk : shouldSkipTask s id
  · by_cases hg : env.now - (s.lastAttemptTime id).getD 0 < (s.lastDelay id).getD RETRY_DELAY
    · rw [processAGI_gate env s id hsk hg]
      exact Or.inl rfl
    · rw [processAGI_run env s id hsk hg]
      exact stepBody_queue env s id
  · rw [processAGI_skip env s id hsk]
    exact Or.inl rfl

theorem stepDispatch_sr_ne (env : TickEnv) (s0 : QMState) (id : Nat) (v : AGIView)
    {j : Nat} (hj : j ≠ id) :
    (stepDispatch env s0 id v).1.swapResults j = s0.swapResults j := by
  rcases herr : (dispatch env s0 id v (effectiveStatus v.orderStatus (s0.orderStatus id))).2.2
    with _ | e
  · rw [stepDispatch_ok env s0 id v herr]
    exact dispatch_sr_ne env s0 id v _ hj
  · rw [stepDispatch_err env s0 id v herr, catchPath_sr]
    exact dispatch_sr_ne env s0 id v _ hj

theorem processAGI_sr_ne (env : TickEnv) (s : QMState) (id : Nat) {j : Nat} (hj : j ≠ id) :
    (processAGI env s id).1.swapResults j = s.swapResults j := by
  rcases hsk : shouldSkipTask s id
  · by_cases hg : env.now - (s.lastAttemptTime id).getD 0 < (s.lastDelay id).getD RETRY_DELAY
    · rw [processAGI_gate env s id hsk hg]
    · rw [processAGI_run env s id hsk hg]
      rcases hv : env.view with msg | v
      · rw [stepBody_viewError env s id hv, catchPath_sr]
      · rw [stepBody_viewOk env s id hv]
        exact stepDispatch_sr_ne env _ id v hj
  · rw [processAGI_skip env s id hsk]

theorem stepDispatch_sr_completed (env : TickEnv) (s0 : QMState) (id : Nat) (v : AGIView)
    {r : SwapResult} (hr : s0.swapResults id = some r)
    (hc : r.status = some SwapPhase.completed) :
    (stepDispatch env s0 id v).1.swapResults id = some r := by
  rcases herr : (dispatch env s0 id v (effectiveStatus v.orderStatus (s0.orderStatus id))).2.2
    with _ | e
  · rw [stepDispatch_ok env s0 id v herr]
    exact dispatch_sr_completed env s0 id v _ hr hc
  · rw [stepDispatch_err env s0 id v herr, catchPath_sr]
    exact dispatch_sr_completed env s0 id v _ hr hc

theorem processAGI_sr_completed (env : TickEnv) (s : QMState) (id0 id : Nat)
    {r : SwapResult} (hr : s.swapResults id0 = some r)
    (hc : r.status = some SwapPhase.completed) :
    (processAGI env s id).1.swapResults id0 = some r := by
  by_cases hj : id0 = id
  · subst hj
    rcases hsk : shouldSkipTask s id0
    · by_cases hg : env.now - (s.lastAttemptTime id0).getD 0 < (s.lastDelay id0).getD RETRY_DELAY
      · rw [processAGI_gate env s id0 hsk hg]
        exact hr
      · rw [processAGI_run env s id0 hsk hg]
        rcases hv : env.view with msg | v
        · rw [stepBody_viewError env s id0 hv, catchPath_sr]
          exact hr
        · rw [stepBody_viewOk env s id0 hv]
          exact stepDispatch_sr_completed env _ id0 v hr hc
    · rw [processAGI_skip env s id0 hsk]
      exact hr
  · rw [processAGI_sr_ne env s id hj]
    exact hr

theorem stepDispatch_attempts (env : TickEnv) (s0 : QMState) (id : Nat) (v : AGIView)
    (j : Nat) :
    attemptsOf (s0.swapResults j) ≤ attemptsOf ((stepDispatch env s0 id v).1.swapResults j) := by
  rcases herr : (dispatch env s0 id v (effectiveStatus v.orderStatus (s0.orderStatus id))).2.2
    with _ | e
  · rw [stepDispatch_ok env s0 id v herr]
    exact dispatch_attempts env s0 id v _ j
  · rw [stepDispatch_err env s0 id v herr, catchPath_sr]
    exact dispatch_attempts env s0 id v _ j

theorem processAGI_attempts (env : TickEnv) (s : QMState) (id j : Nat) :
    attemptsOf (s.swapResults j) ≤ attemptsOf ((processAGI env s id).1.swapResults j) := by
  rcases hsk : shouldSkipTask s id
  · by_cases hg : env.now - (s.lastAttemptTime id).getD 0 < (s.lastDelay id).getD RETRY_DELAY
    · rw [processAGI_gate env s id hsk hg]
    · rw [processAGI_run env s id hsk hg]
      rcases hv : env.view with msg | v
      · rw [stepBody_viewError env s id hv, catchPath_sr]
      · rw [stepBody_viewOk env s id hv]
        exact stepDispatch_attempts env
          { s with lastAttemptTime := upd s.lastAttemptTime id (some env.now) } id v j
  · rw [processAGI_skip env s id hsk]

theorem stepDispatch_orderStatus_vals (env : TickEnv) (s0 : QMState) (id : Nat) (v : AGIView)
    (j : Nat) {x : Nat} (h : (stepDispatch env s0 id v).1.orderStatus j = some x) :
    s0.orderStatus j = some x ∨ x = 2 ∨ x = 3 ∨ x = 4 := by
  revert h
  rcases herr : (dispatch env s0 id v (effectiveStatus v.orderStatus (s0.orderStatus id))).2.2
    with _ | e <;> intro h
  · rw [stepDispatch_ok env s0 id v herr] at h
    exact dispatch_orderStatus_vals env s0 id v _ j h
  · rw [stepDispatch_err env s0 id v herr, catchPath_orderStatus] at h
    exact dispatch_orderStatus_vals env s0 id v _ j h

theorem processAGI_orderStatus_vals (env : TickEnv) (s : QMState) (id j : Nat) {x : Nat}
    (h : (processAGI env s id).1.orderStatus j = some x) :
    s.orderStatus j = some x ∨ x = 2 ∨ x = 3 ∨ x = 4 := by
  rcases hsk : shouldSkipTask s id
  · by_cases hg : env.now - (s.lastAttemptTime id).getD 0 < (s.lastDelay id).getD RETRY_DELAY
    · rw [processAGI_gate env s id hsk hg] at h
      exact Or.inl h
    · rw [processAGI_run env s id hsk hg] at h
      rcases hv : env.view with msg | v
      · rw [stepBody_viewError env s id hv, catchPath_orderStatus] at h
        exact Or.inl h
      · rw [stepBody_viewOk env s id hv] at h
        exact stepDispatch_orderStatus_vals env
          { s with lastAttemptTime := upd s.lastAttemptTime id (some env.now) } id v j h
  · rw [processAGI_skip env s id hsk] at h
    exact Or.inl h

theorem shouldSkipTask_iff (s : QMState) (id : Nat) :
    shouldSkipTask s id = true ↔ ∃ r, s.swapResults id = some r ∧
      r.status = some SwapPhase.failed ∧ MAX_RETRIES ≤ r.attemptCount.getD 0 := by
  unfold shouldSkipTask
  rcases s.swapResults id with _ | r <;> simp

theorem shouldSkipTask_congr {s1 s2 : QMState} (id : Nat)
    (h : s1.swapResults id = s2.swapResults id) :
    shouldSkipTask s1 id = shouldSkipTask s2 id := by
  unfold shouldSkipTask
  rw [h]

theorem removeFromQueue_of_mem (s : QMState) (id : Nat) (h : id ∈ s.queue) :
    removeFromQueue s id =
      { s with
          queue := s.queue.erase id
          lastAttemptTime := upd s.lastAttemptTime id none
          lastDelay := upd s.lastDelay id none
          tickerOn := if (s.queue.erase id).isEmpty then false else s.tickerOn } := by
  unfold removeFromQueue
  rw [if_pos]
  simpa using h

theorem dispatch_err_other_sr (env : TickEnv) (s : QMState) (id : Nat) (v : AGIView)
    (eff : Nat) {m : String}
    (herr : (dispatch env s id v eff).2.2 = some (StepErr.other m)) :
    (dispatch env s id v eff).1.swapResults = s.swapResults := by
  revert herr
  unfold dispatch
  split_ifs <;> intro herr
  · rw [handlePendingDispense_fst]
  · cases herr
  · exfalso
    rcases hr : s.swapResults id with _ | r0
    · rw [handleSwapInitiated_first env s id v hr] at herr
      rcases henv : env.swapOutcome with e | amt
      · rw [(swapAttempt_err _ _ _ _ _ henv).2.2] at herr
        cases Option.some.inj herr
      · rw [(swapAttempt_ok _ _ _ _ _ henv).2.2] at herr
        cases herr
    · by_cases hp : r0.status = some SwapPhase.pending
      · rw [handleSwapInitiated_pending env s id v hr hp] at herr
        cases herr
      · by_cases hcc : r0.status = some SwapPhase.completed
        · rw [handleSwapInitiated_completed env s id v hr hcc] at herr
          cases herr
        · by_cases hs : shouldSkipTask s id
          · rw [handleSwapInitiated_skip env s id v hr hp hcc hs] at herr
            cases herr
          · rw [handleSwapInitiated_retry env s id v hr hp hcc (by simpa using hs)] at herr
            rcases henv : env.swapOutcome with e | amt
            · rw [(swapAttempt_err _ _ _ _ _ henv).2.2] at herr
              cases Option.some.inj herr
            · rw [(swapAttempt_ok _ _ _ _ _ henv).2.2] at herr
              cases herr
  · rcases hr : s.swapResults id with _ | r0
    · rw [handleSwapCompleted_none env s id hr]
    · rcases hd : env.depositOk
      · rw [handleSwapCompleted_fail env s id hr hd]
      · rw [handleSwapCompleted_ok env s id hr hd]
  · cases herr
  · cases herr

theorem dispatch_frame_other (env : TickEnv) (s : QMState) (id : Nat) (v : AGIView)
    (eff : Nat) :
    (dispatch env s id v eff).1.isProcessing = s.isProcessing ∧
    (dispatch env s id v eff).1.tickerOn = s.tickerOn := by
  unfold dispatch
  split_ifs
  · rw [handlePendingDispense_fst]
    exact ⟨rfl, rfl⟩
  · exact ⟨rfl, rfl⟩
  · rcases hr : s.swapResults id with _ | r0
    · rw [handleSwapInitiated_first env s id v hr]
      exact ⟨(swapAttempt_fst _ _ _ _ _).2.2.2.1, (swapAttempt_fst _ _ _ _ _).2.2.2.2⟩
    · by_cases hp : r0.status = some SwapPhase.pending
      · rw [handleSwapInitiated_pending env s id v hr hp]
        exact ⟨rfl, rfl⟩
      · by_cases hcc : r0.status = some SwapPhase.completed
        · rw [handleSwapInitiated_completed env s id v hr hcc]
          exact ⟨rfl, rfl⟩
        · by_cases hs : shouldSkipTask s id
          · rw [handleSwapInitiated_skip env s id v hr hp hcc hs]
            exact ⟨rfl, rfl⟩
          · rw [handleSwapInitiated_retry env s id v hr hp hcc (by simpa using hs)]
            exact ⟨(swapAttempt_fst _ _ _ _ _).2.2.2.1, (swapAttempt_fst _ _ _ _ _).2.2.2.2⟩
  · rcases hr : s.swapResults id with _ | r0
    · rw [handleSwapCompleted_none env s id hr]
      exact ⟨rfl, rfl⟩
    · rcases hd : env.depositOk
      · rw [handleSwapCompleted_fail env s id hr hd]
        exact ⟨rfl, rfl⟩
      · rw [handleSwapCompleted_ok env s id hr hd]
        exact ⟨rfl, rfl⟩
  · exact ⟨rfl, rfl⟩
  · exact ⟨rfl, rfl⟩

theorem stepDispatch_completed_new (env : TickEnv) (s0 : QMState) (id : Nat) (v : AGIView)
    (j : Nat) {r : SwapResult}
    (h : (stepDispatch env s0 id v).1.swapResults j = some r)
    (hc : r.status = some SwapPhase.completed) :
    s0.swapResults j = some r ∨
      (r.amountToBuy.isSome ∧ (stepDispatch env s0 id v).1.orderStatus j = some 4) := by
  revert h
  rcases herr : (dispatch env s0 id v (effectiveStatus v.orderStatus (s0.orderStatus id))).2.2
    with _ | e <;> intro h
  · rw [stepDispatch_ok env s0 id v herr] at h ⊢
    exact dispatch_completed_new env s0 id v _ j h hc
  · rw [stepDispatch_err env s0 id v herr] at h ⊢
    rw [catchPath_sr] at h
    rw [catchPath_orderStatus]
    exact dispatch_completed_new env s0 id v _ j h hc

theorem processAGI_completed_new (env : TickEnv) (s : QMState) (id j : Nat) {r : SwapResult}
    (h : (processAGI env s id).1.swapResults j = some r)
    (hc : r.status = some SwapPhase.completed) :
    s.swapResults j = some r ∨
      (r.amountToBuy.isSome ∧ (processAGI env s id).1.orderStatus j = some 4) := by
  revert h
  rcases hsk : shouldSkipTask s id <;> intro h
  · by_cases hg : env.now - (s.lastAttemptTime id).getD 0 < (s.lastDelay id).getD RETRY_DELAY
    · rw [processAGI_gate env s id hsk hg] at h
      exact Or.inl h
    · rw [processAGI_run env s id hsk hg] at h ⊢
      rcases hv : env.view with msg | v
      · rw [stepBody_viewError env s id hv] at h ⊢
        rw [catchPath_sr] at h
        exact Or.inl h
      · rw [stepBody_viewOk env s id hv] at h ⊢
        exact stepDispatch_completed_new env
          { s with lastAttemptTime := upd s.lastAttemptTime id (some env.now) } id v j h hc
  · rw [processAGI_skip env s id hsk] at h
    exact Or.inl h

theorem stepDispatch_effs (env : TickEnv) (s0 : QMState) (id : Nat) (v : AGIView) {x : Effect}
    (h : x ∈ (stepDispatch env s0 id v).2.1) :
    x ∈ (dispatch env s0 id v (effectiveStatus v.orderStatus (s0.orderStatus id))).2.1 ∨
      ∃ row, x = Effect.recordFailed row := by
  revert h
  rcases herr : (dispatch env s0 id v (effectiveStatus v.orderStatus (s0.orderStatus id))).2.2
    with _ | e <;> intro h
  · rw [stepDispatch_ok env s0 id v herr] at h
    exact Or.inl h
  · rw [stepDispatch_err env s0 id v herr] at h
    exact catchPath_effs env _ id (some v) e _ h

theorem processAGI_swapCall (env : TickEnv) (s : QMState) (id : Nat) {j : Nat}
    {a b c : String} (h : Effect.swapCall j a b c ∈ (processAGI env s id).2.1) :
    j = id ∧ ∀ r, s.swapResults id = some r → r.status ≠ some SwapPhase.completed := by
  revert h
  rcases hsk : shouldSkipTask s id <;> intro h
  · by_cases hg : env.now - (s.lastAttemptTime id).getD 0 < (s.lastDelay id).getD RETRY_DELAY
    · rw [processAGI_gate env s id hsk hg] at h
      simp at h
    · rw [processAGI_run env s id hsk hg] at h
      rcases hv : env.view with msg | v
      · rw [stepBody_viewError env s id hv] at h
        rcases catchPath_effs env _ id none _ [] h with h | ⟨row, h⟩
        · simp at h
        · cases h
      · rw [stepBody_viewOk env s id hv] at h
        rcases stepDispatch_effs env _ id v h with h | ⟨row, h⟩
        · exact dispatch_swapCall env
            { s with lastAttemptTime := upd s.lastAttemptTime id (some env.now) } id v _ h
        · cases h
  · rw [processAGI_skip env s id hsk] at h
    simp at h

theorem processAGI_depositCall (env : TickEnv) (s : QMState) (id : Nat) {j amt : Nat}
    (h : Effect.depositCall j amt ∈ (processAGI env s id).2.1) :
    j = id ∧ ∃ r, s.swapResults id = some r ∧ amt = r.amountToBuy.getD 0 := by
  revert h
  rcases hsk : shouldSkipTask s id <;> intro h
  · by_cases hg : env.now - (s.lastAttemptTime id).getD 0 < (s.lastDelay id).getD RETRY_DELAY
    · rw [processAGI_gate env s id hsk hg] at h
      simp at h
    · rw [processAGI_run env s id hsk hg] at h
      rcases hv : env.view with msg | v
      · rw [stepBody_viewError env s id hv] at h
        rcases catchPath_effs env _ id none _ [] h with h | ⟨row, h⟩
        · simp at h
        · cases h
      · rw [stepBody_viewOk env s id hv] at h
        rcases stepDispatch_effs env _ id v h with h | ⟨row, h⟩
        · exact dispatch_depositCall env
            { s with lastAttemptTime := upd s.lastAttemptTime id (some env.now) } id v _ h
        · cases h
  · rw [processAGI_skip env s id hsk] at h
    simp at h

theorem catchPath_out_caught (env : TickEnv) (s : QMState) (id : Nat) (agi : Option AGIView)
    (e e' : StepErr) (effs : List Effect)
    (h : (catchPath env s id agi e effs).2.2 = StepOutcome.caught e') : e' = e := by
  by_cases hs : shouldSkipTask s id
  · by_cases hi : env.dbEnv.initFails
    · rw [catchPath_escape env s id agi e effs hs hi] at h
      cases h
    · rw [catchPath_evict env s id agi e effs hs (by simpa using hi)] at h
      exact (StepOutcome.caught.inj h).symm
  · rw [catchPath_noskip env s id agi e effs (by simpa using hs)] at h
    exact (StepOutcome.caught.inj h).symm

theorem catchPath_out_escaped (env : TickEnv) (s : QMState) (id : Nat) (agi : Option AGIView)
    (e e' : StepErr) (effs : List Effect)
    (h : (catchPath env s id agi e effs).2.2 = StepOutcome.escaped e') :
    env.dbEnv.initFails = true := by
  by_cases hs : shouldSkipTask s id
  · by_cases hi : env.dbEnv.initFails
    · exact hi
    · rw [catchPath_evict env s id agi e effs hs (by simpa using hi)] at h
      cases h
  · rw [catchPath_noskip env s id agi e effs (by simpa using hs)] at h
    cases h

theorem catchPath_ne_ok (env : TickEnv) (s : QMState) (id : Nat) (agi : Option AGIView)
    (e : StepErr) (effs : List Effect) :
    ¬ (catchPath env s id agi e effs).2.2 = StepOutcome.ok := by
  unfold catchPath
  split_ifs <;> simp

theorem add_orderStatus (s : QMState) (id : Nat) : (add s id).orderStatus = s.orderStatus := by
  unfold add
  split_ifs <;> rfl

theorem add_swapResults (s : QMState) (id : Nat) : (add s id).swapResults = s.swapResults := by
  unfold add
  split_ifs <;> rfl

theorem startProcessing_busy (env : TickEnv) (s : QMState) (hip : s.isProcessing = true) :
    startProcessing env s = (s, [], StepOutcome.ok, []) := by
  unfold startProcessing
  simp [hip]

theorem startProcessing_idle_nil (env : TickEnv) (s : QMState) (hip : s.isProcessing = false)
    (hq : s.queue = []) :
    startProcessing env s = ({ s with isProcessing := false }, [], StepOutcome.ok, []) := by
  unfold startProcessing
  rw [hip]
  simp only [Bool.false_eq_true, if_false]
  rw [hq]

theorem startProcessing_idle_cons (env : TickEnv) (s : QMState) {hd : Nat} {tl : List Nat}
    (hip : s.isProcessing = false) (hq : s.queue = hd :: tl) :
    startProcessing env s =
      ({ (processAGI env { s with isProcessing := true, queue := tl ++ [hd] } hd).1 with
          isProcessing := false },
        (processAGI env { s with isProcessing := true, queue := tl ++ [hd] } hd).2.1,
        (processAGI env { s with isProcessing := true, queue := tl ++ [hd] } hd).2.2,
        [hd]) := by
  unfold startProcessing
  rw [hip]
  simp only [Bool.false_eq_true, if_false]
  rw [hq]

theorem tick_empty (env : TickEnv) (s : QMState) (hq : s.queue = []) :
    tick env s = ({ s with tickerOn := false }, [], StepOutcome.ok, []) := by
  unfold tick
  rw [hq]
  rcases s.isProcessing <;> simp

theorem tick_busy (env : TickEnv) (s : QMState) (hip : s.isProcessing = true)
    {hd : Nat} {tl : List Nat} (hq : s.queue = hd :: tl) :
    tick env s = (s, [], StepOutcome.ok, []) := by
  unfold tick
  rw [hip, hq]
  simp

theorem tick_run (env : TickEnv) (s : QMState) (hip : s.isProcessing = false)
    {hd : Nat} {tl : List Nat} (hq : s.queue = hd :: tl) :
    tick env s = startProcessing env s := by
  unfold tick
  rw [hip, hq]
  simp

/-- Internal statuses stored in `orderStatus` are only ever `3`
(`SwapInitiated`), `4` (`SwapCompleted`) or `2` (`ProceedsReceived`):
the queue manager never records `0` or `1`. -/
theorem reachable_orderStatus_vals {s : QMState} (hs : Reachable s) :
    ∀ id x, s.orderStatus id = some x → x = 2 ∨ x = 3 ∨ x = 4 := by
  induction hs with
  | init =>
      intro id x h
      cases h
  | enqueue id hs ih =>
      intro j x h
      rw [add_orderStatus] at h
      exact ih j x h
  | step env hs ih =>
      rename_i s0
      intro j x h
      rcases hq : s0.queue with _ | ⟨hd, tl⟩
      · rw [tick_empty env s0 hq] at h
        exact ih j x h
      · rcases hip : s0.isProcessing
        · rw [tick_run env s0 hip hq, startProcessing_idle_cons env s0 hip hq] at h
          rcases processAGI_orderStatus_vals env
              { s0 with isProcessing := true, queue := tl ++ [hd] } hd j h with h | h
          · exact ih j x h
          · exact h
        · rw [tick_busy env s0 hip hq] at h
          exact ih j x h

set_option maxRecDepth 100000

namespace P16

theorem checkTransactionReceipt_never_errors (oracle : ReceiptOracle) :
    checkTransactionReceipt oracle = Except.ok () := by
  unfold checkTransactionReceipt
  rcases oracle 0 with e | st
  · rcases receiptRetryLoop oracle 1000 1 <;> rfl
  · rcases st
    · rfl
    · rcases receiptRetryLoop oracle 1000 1 <;> rfl

end P16

/-- C1: the effective status dispatched on is the internal `extStatus` when
the contract status is 1 and an internal status is recorded for the id, and
the contract's status in every other case (contract status 0 or 2, or no
internal status).  On reachable states the recorded internal statuses are
2, 3 or 4 — never 0 — so the JavaScript truthiness test in the source
coincides with presence of the entry. -/
theorem c1_effective_status {s : QMState} (hs : Reachable s) (id c x : Nat) :
    (c = 1 → s.orderStatus id = some x → effectiveStatus c (s.orderStatus id) = x) ∧
    (¬ c = 1 ∨ s.orderStatus id = none → effectiveStatus c (s.orderStatus id) = c) := by
  constructor
  · rintro rfl h
    rcases reachable_orderStatus_vals hs id x h with h2 | h2 | h2 <;>
      · subst h2
        rw [h]
        simp [effectiveStatus, jsTruthy]
  · rintro (hc | hn)
    · simp [effectiveStatus, hc]
    · rw [hn]
      simp [effectiveStatus, jsTruthy]

/-- C1 witness: after admitting intent 7 and one tick at contract status 1,
the internal status is 3 and the effective status at contract status 1 is
that internal 3. -/
theorem c1_witness :
    effectiveStatus 1
        (((tick (happyEnv 20000 1) (tick (happyEnv 10000 0) (add initState 7)).1).1).orderStatus 7)
      = 3 :=
  (c1_effective_status
    (Reachable.step _ (Reachable.step _ (Reachable.enqueue 7 Reachable.init))) 7 1 3).1
    rfl (by rfl)

/-- C5 (code bug): `checkTransactionReceipt` never raises any error — for
every receipt oracle, including one that reports a reverted receipt on every
poll, it returns normally.  The `throw new Error('Transaction reverted')` is
caught by the function's own catch blocks: the first throw lands in the
outer `catch`, and inside the retry loop the throw lands in
`catch (retryError)` and merely counts as another retry, so after the
1000-attempt cap the function falls out of the loop and returns as if the
transaction had succeeded. -/
theorem c5_receipt_wait_swallows_revert :
    P16.checkTransactionReceipt (fun _ => Except.ok ReceiptStatus.reverted) = Except.ok () ∧
    ∀ oracle : ReceiptOracle, P16.checkTransactionReceipt oracle = Except.ok () :=
  ⟨P16.checkTransactionReceipt_never_errors _, P16.checkTransactionReceipt_never_errors⟩

/-- C7 counterexample: the claim says an approve is submitted only when the
existing allowance is insufficient; with an allowance of 1000000 against a
deposit of 5 the `part_016` `depositAsset` still submits an approve (the
source never reads the allowance). -/
theorem c7_counterexample :
    5 ≤ richTxEnv.allowance ∧
      TxEffect.approveSubmit 5 ∈ (P16.depositAsset richTxEnv 1 5).1 := by
  refine ⟨by decide, by decide⟩

/-- C7 amended: `depositAsset` (part_016) always first submits an ERC-20
approve for the deposit amount and waits on its receipt, failing when the
approval reverted; then it simulates the deposit and submits the deposit
write exactly once, and the receipt wait returns normally whatever the
receipt (see C5).  The `src/src/utils.ts` variant performs no approval and
submits the deposit write twice. -/
theorem c7_deposit_behaviour :
    (∀ (env : TxEnv) (oi amt : Nat),
       env.approveSimOk = true → env.approveReceipt = ReceiptStatus.success →
       env.depositSimOk = true →
       P16.depositAsset env oi amt =
         ([TxEffect.approveSubmit amt, TxEffect.depositWrite], none)) ∧
    (∀ (env : TxEnv) (oi amt : Nat),
       env.approveSimOk = true → env.approveReceipt = ReceiptStatus.reverted →
       P16.depositAsset env oi amt =
         ([TxEffect.approveSubmit amt], some "Approval transaction failed")) ∧
    (∀ (env : TxEnv) (fuel oi amt : Nat), env.depositSimOk = true →
       (UtilsV.depositAsset env fuel oi amt).1 =
         [TxEffect.depositWrite, TxEffect.depositWrite] ∧
       TxEffect.approveSubmit amt ∉ (UtilsV.depositAsset env fuel oi amt).1) := by
  refine ⟨?_, ?_, ?_⟩
  · intro env oi amt ha hr hd
    unfold P16.depositAsset P16.approveERC20
    rw [P16.checkTransactionReceipt_never_errors]
    simp [ha, hr, hd]
  · intro env oi amt ha hr
    unfold P16.depositAsset P16.approveERC20
    simp [ha, hr]
  · intro env fuel oi amt hd
    unfold UtilsV.depositAsset
    rcases UtilsV.checkTransactionReceipt env.depositOracle fuel <;> simp [hd]

/-- C7 witness: in the all-success environment with ample allowance the
part_016 deposit submits one approve and one deposit write and succeeds. -/
theorem c7_witness :
    P16.depositAsset richTxEnv 1 5 =
      ([TxEffect.approveSubmit 5, TxEffect.depositWrite], none) :=
  c7_deposit_behaviour.1 richTxEnv 1 5 rfl rfl rfl

/-- C10 counterexample: the claim says the store operations catch every
database error internally; but `await this.init()` runs before the `try`,
so an error opening the database propagates out of `tryDeleteFailedSwap`
(and likewise out of `recordFailedSwap`). -/
theorem c10_counterexample :
    tryDeleteFailedSwap { initFails := true, getFails := false, runFails := false } [] 7
      = Except.error "failed to open failed swaps db" := by rfl

/-- C10 amended: once the store is initialized (`init` does not throw), both
operations resolve normally whatever the sqlite `get`/`run` calls do;
`tryDeleteFailedSwap` returns the store unchanged when no row exists for the
id; and with a working `init` the post-deposit cleanup of the SwapCompleted
handler can never fail a step. -/
theorem c10_store_error_containment :
    (∀ (dbenv : DbEnv) (db : List FailedRow) (row : FailedRow), dbenv.initFails = false →
       ∃ db2, recordFailedSwap dbenv db row = Except.ok db2) ∧
    (∀ (dbenv : DbEnv) (db : List FailedRow) (id : Nat), dbenv.initFails = false →
       ∃ db2, tryDeleteFailedSwap dbenv db id = Except.ok db2) ∧
    (∀ (dbenv : DbEnv) (db : List FailedRow) (id : Nat), dbenv.initFails = false →
       db.any (fun r => r.agi_id = id) = false →
       tryDeleteFailedSwap dbenv db id = Except.ok db) ∧
    (∀ (env : TickEnv) (s : QMState) (id : Nat), env.depositOk = true →
       env.dbEnv.initFails = false → (handleSwapCompleted env s id).2.2 = none) := by
  refine ⟨?_, ?_, ?_, ?_⟩
  · intro dbenv db row h
    unfold recordFailedSwap
    simp only [h, Bool.false_eq_true, if_false]
    split_ifs <;> exact ⟨_, rfl⟩
  · intro dbenv db id h
    unfold tryDeleteFailedSwap
    simp only [h, Bool.false_eq_true, if_false]
    split_ifs <;> exact ⟨_, rfl⟩
  · intro dbenv db id h hany
    unfold tryDeleteFailedSwap
    simp [h, hany]
  · intro env s id hd hi
    rcases hr : s.swapResults id with _ | r
    · rw [handleSwapCompleted_none env s id hr]
    · rw [handleSwapCompleted_ok env s id hr hd]
      simp [hi]

/-- C10 witness: deleting from an empty, healthy store is a no-op, and with
a working store and a successful deposit the SwapCompleted handler reports
no error. -/
theorem c10_witness :
    tryDeleteFailedSwap noDbFail [] 7 = Except.ok [] ∧
    (handleSwapCompleted completedEnv completedState 5).2.2 = none :=
  ⟨c10_store_error_containment.2.2.1 noDbFail [] 7 rfl rfl,
    c10_store_error_containment.2.2.2 completedEnv completedState 5 rfl rfl⟩

/-- C9 counterexample: the swap capability returns `2^53 + 1` units, but the
cached swap record holds `parseInt`'s float64 value `2^53` — the amount is
not carried at full 256-bit precision. -/
theorem c9_counterexample :
    bigSwapEnv.swapOutcome = Except.ok 9007199254740993 ∧
    (processAGI bigSwapEnv bigSwapState 3).1.swapResults 3 =
      some ⟨some 3, some 9007199254740992, some SwapPhase.completed, some 1⟩ ∧
    (9007199254740992 : Nat) ≠ 9007199254740993 := by
  refine ⟨by rfl, by rfl, by decide⟩

/-- C9 amended: `amountToSell` is carried as an unbounded integer — it is
passed to the swap call and written to the failure row as its exact decimal
string — but `amountToBuy` is coerced through `parseInt` to a float64
value, which is what the swap record caches and what `depositAsset`
receives; amounts above `2^53` lose precision in that coercion. -/
theorem c9_amount_precision :
    (∀ (env : TickEnv) (id : Nat) (agi : AGIView) (e : StepErr),
       (failedRowOf env id (some agi) e).amount_to_sell = Nat.repr agi.amountToSell) ∧
    (∀ (env : TickEnv) (s : QMState) (id : Nat) (v : AGIView) (ex : Option SwapResult),
       (swapAttempt env s id v ex).2.1 =
         [Effect.swapCall id v.assetToSell v.assetToBuy (Nat.repr v.amountToSell)]) ∧
    (∀ (env : TickEnv) (s : QMState) (id : Nat) (v : AGIView) (ex : Option SwapResult)
       (amt : Nat), env.swapOutcome = Except.ok amt →
       (swapAttempt env s id v ex).1.swapResults id = some
         { (s.swapResults id).getD {} with
             amountToBuy := some (jsParseInt amt)
             attemptCount := some (attemptsOf ex + 1)
             status := some SwapPhase.completed }) ∧
    (∀ (env : TickEnv) (s : QMState) (id : Nat) (j amt : Nat),
       Effect.depositCall j amt ∈ (processAGI env s id).2.1 →
       ∃ r, s.swapResults id = some r ∧ amt = r.amountToBuy.getD 0) ∧
    (∃ n : Nat, jsParseInt n ≠ n) := by
  refine ⟨fun env id agi e => rfl, fun env s id v ex => swapAttempt_effs env s id v ex,
    fun env s id v ex amt h => (swapAttempt_ok env s id v ex h).1,
    fun env s id j amt h => (processAGI_depositCall env s id h).2,
    ⟨9007199254740993, by decide⟩⟩

/-- C9 witness: a concrete first swap attempt returning `2^53 + 1` caches
the rounded float64 amount in the completed record. -/
theorem c9_witness :
    (swapAttempt bigSwapEnv bigSwapState 3 (viewOf 3 1) none).1.swapResults 3 = some
      { (bigSwapState.swapResults 3).getD {} with
          amountToBuy := some (jsParseInt 9007199254740993)
          attemptCount := some (attemptsOf (none : Option SwapResult) + 1)
          status := some SwapPhase.completed } :=
  c9_amount_precision.2.2.1 bigSwapEnv bigSwapState 3 (viewOf 3 1) none 9007199254740993 rfl

/-- C2: when the ticker fires while no step is in flight and the queue is
non-empty, exactly one intent — the head — is processed, and it is rotated
to the tail before its handler runs (the tick equals `processAGI` applied to
the state whose queue is `tl ++ [hd]`); at the end of the step that intent
is at the queue's tail unless the handler removed it.  When the ticker fires
with an empty queue, the ticker is stopped. -/
theorem c2_tick_processes_head (env : TickEnv) (s : QMState) :
    (∀ hd tl, s.isProcessing = false → s.queue = hd :: tl →
      tick env s =
        ({ (processAGI env { s with isProcessing := true, queue := tl ++ [hd] } hd).1 with
            isProcessing := false },
          (processAGI env { s with isProcessing := true, queue := tl ++ [hd] } hd).2.1,
          (processAGI env { s with isProcessing := true, queue := tl ++ [hd] } hd).2.2,
          [hd]) ∧
        ((∃ q2, (tick env s).1.queue = q2 ++ [hd]) ∨ hd ∉ (tick env s).1.queue)) ∧
    (s.queue = [] → (tick env s).1.tickerOn = false) := by
  constructor
  · intro hd tl hip hq
    have heq : tick env s =
        ({ (processAGI env { s with isProcessing := true, queue := tl ++ [hd] } hd).1 with
            isProcessing := false },
          (processAGI env { s with isProcessing := true, queue := tl ++ [hd] } hd).2.1,
          (processAGI env { s with isProcessing := true, queue := tl ++ [hd] } hd).2.2,
          [hd]) := by
      rw [tick_run env s hip hq, startProcessing_idle_cons env s hip hq]
    refine ⟨heq, ?_⟩
    rw [heq]
    show (∃ q2, (processAGI env { s with isProcessing := true, queue := tl ++ [hd] } hd).1.queue
        = q2 ++ [hd]) ∨
      hd ∉ (processAGI env { s with isProcessing := true, queue := tl ++ [hd] } hd).1.queue
    rcases processAGI_queue env { s with isProcessing := true, queue := tl ++ [hd] } hd
      with h | h
    · exact Or.inl ⟨tl, h⟩
    · by_cases hmem : hd ∈ tl
      · rw [List.erase_append_left [hd] hmem] at h
        exact Or.inl ⟨tl.erase hd, h⟩
      · rw [List.erase_append_right [hd] hmem] at h
        simp only [List.erase_cons_head, List.append_nil] at h
        right
        rw [h]
        exact hmem
  · intro hq
    rw [tick_empty env s hq]

/-- C2 witness: on the freshly admitted queue `[7]`, a tick processes intent
7 and leaves it at the tail or removed. -/
theorem c2_witness :
    (∃ q2, (tick (happyEnv 10000 0) (add initState 7)).1.queue = q2 ++ [7]) ∨
      7 ∉ (tick (happyEnv 10000 0) (add initState 7)).1.queue :=
  (((c2_tick_processes_head (happyEnv 10000 0) (add initState 7)).1) 7 [] rfl rfl).2

/-- C4: swap execution is idempotent per orderId — once the swap record of
an id is Completed, any later step (for that id or any other) keeps the
record unchanged, makes no further swap-capability call for that id, and any
deposit call for that id passes exactly the cached `amountToBuy`; the
SwapInitiated handler then merely sets the internal status to SwapCompleted
and returns. -/
theorem c4_idempotent_swap (env : TickEnv) (s : QMState) (id id2 : Nat) (v : AGIView)
    (r : SwapResult) (hr : s.swapResults id = some r)
    (hc : r.status = some SwapPhase.completed) :
    (processAGI env s id2).1.swapResults id = some r ∧
    (∀ a b c2, Effect.swapCall id a b c2 ∉ (processAGI env s id2).2.1) ∧
    (∀ amt, Effect.depositCall id amt ∈ (processAGI env s id2).2.1 →
      amt = r.amountToBuy.getD 0) ∧
    handleSwapInitiated env s id v =
      ({ s with orderStatus := upd s.orderStatus id (some 4) }, [], none) := by
  refine ⟨processAGI_sr_completed env s id id2 hr hc, ?_, ?_,
    handleSwapInitiated_completed env s id v hr hc⟩
  · intro a b c2 hmem
    rcases processAGI_swapCall env s id2 hmem with ⟨rfl, hno⟩
    exact hno r hr hc
  · intro amt hmem
    rcases processAGI_depositCall env s id2 hmem with ⟨rfl, r2, hr2, hamt⟩
    rw [hr] at hr2
    cases Option.some.inj hr2
    exact hamt

/-- C4 witness: with intent 5's swap already completed (cached amount 250),
a step for 5 keeps the record and the handler only marks SwapCompleted. -/
theorem c4_witness :
    (processAGI completedEnv completedState 5).1.swapResults 5 =
      some ⟨some 5, some 250, some SwapPhase.completed, some 1⟩ :=
  (c4_idempotent_swap completedEnv completedState 5 5 (viewOf 5 1)
    ⟨some 5, some 250, some SwapPhase.completed, some 1⟩ rfl rfl).1

theorem dispatch_orderStatus_of_err (env : TickEnv) (s : QMState) (id : Nat) (v : AGIView)
    (eff : Nat) {e : StepErr} (herr : (dispatch env s id v eff).2.2 = some e)
    (hdb : env.dbEnv.initFails = false) :
    (dispatch env s id v eff).1.orderStatus = s.orderStatus := by
  revert herr
  unfold dispatch
  split_ifs <;> intro herr
  · rw [handlePendingDispense_fst]
  · cases herr
  · rcases hr : s.swapResults id with _ | r0
    · rw [handleSwapInitiated_first env s id v hr] at herr ⊢
      rcases henv : env.swapOutcome with e2 | amt
      · exact (swapAttempt_err _ _ _ _ _ henv).2.1
      · rw [(swapAttempt_ok _ _ _ _ _ henv).2.2] at herr
        cases herr
    · by_cases hp : r0.status = some SwapPhase.pending
      · rw [handleSwapInitiated_pending env s id v hr hp] at herr
        cases herr
      · by_cases hcc : r0.status = some SwapPhase.completed
        · rw [handleSwapInitiated_completed env s id v hr hcc] at herr
          cases herr
        · by_cases hs : shouldSkipTask s id
          · rw [handleSwapInitiated_skip env s id v hr hp hcc hs] at herr
            cases herr
          · rw [handleSwapInitiated_retry env s id v hr hp hcc (by simpa using hs)] at herr ⊢
            rcases henv : env.swapOutcome with e2 | amt
            · exact (swapAttempt_err _ _ _ _ _ henv).2.1
            · rw [(swapAttempt_ok _ _ _ _ _ henv).2.2] at herr
              cases herr
  · rcases hr : s.swapResults id with _ | r0
    · rw [handleSwapCompleted_none env s id hr]
    · rcases hd : env.depositOk
      · rw [handleSwapCompleted_fail env s id hr hd]
      · rw [handleSwapCompleted_ok env s id hr hd] at herr
        simp [hdb] at herr
  · cases herr
  · cases herr

theorem stepDispatch_evict (env : TickEnv) (s0 : QMState) (id : Nat) (v : AGIView)
    (hq : id ∈ s0.queue) (hdb : env.dbEnv.initFails = false) :
    ∀ e, (stepDispatch env s0 id v).2.2 = StepOutcome.caught e →
      shouldSkipTask (stepDispatch env s0 id v).1 id = true →
      (stepDispatch env s0 id v).1.queue = s0.queue.erase id ∧
      List.countP (isRecordFor id) (stepDispatch env s0 id v).2.1 = 1 ∧
      (stepDispatch env s0 id v).1.lastAttemptTime id = none ∧
      (stepDispatch env s0 id v).1.lastDelay id = none ∧
      (∃ r, (stepDispatch env s0 id v).1.swapResults id = some r ∧
        r.status = some SwapPhase.failed ∧ MAX_RETRIES ≤ r.attemptCount.getD 0) ∧
      (stepDispatch env s0 id v).1.orderStatus id = s0.orderStatus id := by
  intro e hout hskpost
  rcases herr : (dispatch env s0 id v (effectiveStatus v.orderStatus (s0.orderStatus id))).2.2
    with _ | e2
  · rw [stepDispatch_ok env s0 id v herr] at hout
    cases hout
  · rw [stepDispatch_err env s0 id v herr] at hout hskpost ⊢
    rcases hsmid : shouldSkipTask
        (dispatch env s0 id v (effectiveStatus v.orderStatus (s0.orderStatus id))).1 id
      with _ | _
    · rw [catchPath_noskip env _ id (some v) e2 _ hsmid] at hskpost
      have hcontra : shouldSkipTask
          (dispatch env s0 id v (effectiveStatus v.orderStatus (s0.orderStatus id))).1 id
            = true := hskpost
      rw [hsmid] at hcontra
      cases hcontra
    · rw [catchPath_evict env _ id (some v) e2 _ hsmid hdb]
      dsimp only
      have hmidq := dispatch_queue_of_err env s0 id v _ herr
      have hqm : id ∈
          (dispatch env s0 id v (effectiveStatus v.orderStatus (s0.orderStatus id))).1.queue := by
        rw [hmidq]
        exact hq
      refine ⟨?_, ?_, ?_, ?_, ?_, ?_⟩
      · rw [removeFromQueue_queue, hmidq]
      · rw [List.countP_append]
        have h0 : List.countP (isRecordFor id)
            (dispatch env s0 id v (effectiveStatus v.orderStatus (s0.orderStatus id))).2.1
              = 0 := by
          rw [List.countP_eq_zero]
          intro a ha
          cases a with
          | withdrawCall i => exact Bool.false_ne_true
          | swapCall i a2 b2 c2 => exact Bool.false_ne_true
          | depositCall i amt => exact Bool.false_ne_true
          | recordFailed row => exact absurd ha (dispatch_no_record env s0 id v _ row)
          | deleteFailed i => exact Bool.false_ne_true
        rw [h0]
        simp [isRecordFor, failedRowOf]
      · rw [removeFromQueue_of_mem _ _ hqm]
        simp [upd]
      · rw [removeFromQueue_of_mem _ _ hqm]
        simp [upd]
      · rcases (shouldSkipTask_iff _ id).1 hsmid with ⟨r, hmr, hf, hat⟩
        refine ⟨r, ?_, hf, hat⟩
        rw [removeFromQueue_sr]
        exact hmr
      · rw [removeFromQueue_orderStatus,
          dispatch_orderStatus_of_err env s0 id v _ herr hdb]

theorem stepDispatch_caught_other (env : TickEnv) (s0 : QMState) (id : Nat) (v : AGIView)
    (hsk0 : shouldSkipTask s0 id = false) :
    ∀ m, (stepDispatch env s0 id v).2.2 = StepOutcome.caught (StepErr.other m) →
      (stepDispatch env s0 id v).1.lastDelay id = some RETRY_DELAY ∧
      (stepDispatch env s0 id v).1.lastAttemptTime id = some env.now ∧
      (stepDispatch env s0 id v).1.queue = s0.queue := by
  intro m hout
  rcases herr : (dispatch env s0 id v (effectiveStatus v.orderStatus (s0.orderStatus id))).2.2
    with _ | e2
  · rw [stepDispatch_ok env s0 id v herr] at hout
    cases hout
  · rw [stepDispatch_err env s0 id v herr] at hout ⊢
    cases catchPath_out_caught env _ id (some v) e2 _ _ hout
    have hsr := dispatch_err_other_sr env s0 id v _ herr
    have hsmid : shouldSkipTask
        (dispatch env s0 id v (effectiveStatus v.orderStatus (s0.orderStatus id))).1 id
          = false := by
      rw [shouldSkipTask_congr id (congrFun hsr id)]
      exact hsk0
    rw [catchPath_noskip env _ id (some v) _ _ hsmid]
    dsimp only
    refine ⟨by simp [upd, StepErr.isSwap], by simp [upd], ?_⟩
    exact dispatch_queue_of_err env s0 id v _ herr

theorem stepDispatch_caught_swap (env : TickEnv) (s0 : QMState) (id : Nat) (v : AGIView)
    (hq : id ∈ s0.queue) (hdb : env.dbEnv.initFails = false) :
    ∀ m, (stepDispatch env s0 id v).2.2 = StepOutcome.caught (StepErr.swapError m) →
      ((stepDispatch env s0 id v).1.lastDelay id = some SWAP_RETRY_DELAY ∧
       (stepDispatch env s0 id v).1.lastAttemptTime id = some env.now) ∨
      ((stepDispatch env s0 id v).1.lastDelay id = none ∧
       (stepDispatch env s0 id v).1.lastAttemptTime id = none ∧
       (stepDispatch env s0 id v).1.queue = s0.queue.erase id) := by
  intro m hout
  rcases herr : (dispatch env s0 id v (effectiveStatus v.orderStatus (s0.orderStatus id))).2.2
    with _ | e2
  · rw [stepDispatch_ok env s0 id v herr] at hout
    cases hout
  · rw [stepDispatch_err env s0 id v herr] at hout ⊢
    cases catchPath_out_caught env _ id (some v) e2 _ _ hout
    rcases hsmid : shouldSkipTask
        (dispatch env s0 id v (effectiveStatus v.orderStatus (s0.orderStatus id))).1 id
      with _ | _
    · left
      rw [catchPath_noskip env _ id (some v) _ _ hsmid]
      dsimp only
      exact ⟨by simp [upd, StepErr.isSwap], by simp [upd]⟩
    · right
      rw [catchPath_evict env _ id (some v) _ _ hsmid hdb]
      dsimp only
      have hmidq := dispatch_queue_of_err env s0 id v _ herr
      have hqm : id ∈
          (dispatch env s0 id v (effectiveStatus v.orderStatus (s0.orderStatus id))).1.queue := by
        rw [hmidq]
        exact hq
      refine ⟨?_, ?_, ?_⟩
      · rw [removeFromQueue_of_mem _ _ hqm]
        simp [upd]
      · rw [removeFromQueue_of_mem _ _ hqm]
        simp [upd]
      · rw [removeFromQueue_queue, hmidq]

theorem stepDispatch_no_escape (env : TickEnv) (s0 : QMState) (id : Nat) (v : AGIView)
    (hdb : env.dbEnv.initFails = false) :
    ∀ e, ¬ (stepDispatch env s0 id v).2.2 = StepOutcome.escaped e := by
  intro e h
  rcases herr : (dispatch env s0 id v (effectiveStatus v.orderStatus (s0.orderStatus id))).2.2
    with _ | e2
  · rw [stepDispatch_ok env s0 id v herr] at h
    cases h
  · rw [stepDispatch_err env s0 id v herr] at h
    have hinit := catchPath_out_escaped env _ id (some v) e2 e _ h
    rw [hdb] at hinit
    cases hinit

/-- C6 (amended): after a step whose error class is non-swap, the required
delay is set to `RETRY_DELAY` and `lastAttemptAt` to the current time, with
the queue untouched; after a step that raises a `SwapError`, either the
delay is set to `SWAP_RETRY_DELAY` with `lastAttemptAt` updated, or — when
that error brings the swap record to the retry ceiling — the intent is
evicted and both its `lastAttemptAt` and `requiredDelay` entries are
deleted; after a successful processed step the delay is `RETRY_DELAY`; and
with a working FailedSwaps store no exception escapes `processAGI` into the
ticker. -/
theorem c6_delay_policy (env : TickEnv) (s : QMState) (id : Nat) (hq : id ∈ s.queue)
    (hdb : env.dbEnv.initFails = false) :
    (∀ m, (processAGI env s id).2.2 = StepOutcome.caught (StepErr.other m) →
       (processAGI env s id).1.lastDelay id = some RETRY_DELAY ∧
       (processAGI env s id).1.lastAttemptTime id = some env.now ∧
       (processAGI env s id).1.queue = s.queue) ∧
    (∀ m, (processAGI env s id).2.2 = StepOutcome.caught (StepErr.swapError m) →
       ((processAGI env s id).1.lastDelay id = some SWAP_RETRY_DELAY ∧
        (processAGI env s id).1.lastAttemptTime id = some env.now) ∨
       ((processAGI env s id).1.lastDelay id = none ∧
        (processAGI env s id).1.lastAttemptTime id = none ∧
        (processAGI env s id).1.queue = s.queue.erase id)) ∧
    (shouldSkipTask s id = false →
      ¬ env.now - (s.lastAttemptTime id).getD 0 < (s.lastDelay id).getD RETRY_DELAY →
      (processAGI env s id).2.2 = StepOutcome.ok →
      (processAGI env s id).1.lastDelay id = some RETRY_DELAY ∧
      (processAGI env s id).1.lastAttemptTime id = some env.now) ∧
    (∀ e, ¬ (processAGI env s id).2.2 = StepOutcome.escaped e) := by
  refine ⟨?_, ?_, ?_, ?_⟩
  · intro m hout
    rcases hsk : shouldSkipTask s id with _ | _
    · by_cases hg : env.now - (s.lastAttemptTime id).getD 0 < (s.lastDelay id).getD RETRY_DELAY
      · rw [processAGI_gate env s id hsk hg] at hout
        cases hout
      · rw [processAGI_run env s id hsk hg] at hout ⊢
        rcases hv : env.view with msg | v
        · rw [stepBody_viewError env s id hv] at hout ⊢
          rw [catchPath_noskip env { s with lastAttemptTime := upd s.lastAttemptTime id (some env.now) } id none _ [] hsk]
          dsimp only
          exact ⟨by simp [upd, StepErr.isSwap], by simp [upd], rfl⟩
        · rw [stepBody_viewOk env s id hv] at hout ⊢
          exact stepDispatch_caught_other env { s with lastAttemptTime := upd s.lastAttemptTime id (some env.now) } id v hsk m hout
    · rw [processAGI_skip env s id hsk] at hout
      cases hout
  · intro m hout
    rcases hsk : shouldSkipTask s id with _ | _
    · by_cases hg : env.now - (s.lastAttemptTime id).getD 0 < (s.lastDelay id).getD RETRY_DELAY
      · rw [processAGI_gate env s id hsk hg] at hout
        cases hout
      · rw [processAGI_run env s id hsk hg] at hout ⊢
        rcases hv : env.view with msg | v
        · rw [stepBody_viewError env s id hv] at hout
          rw [catchPath_noskip env { s with lastAttemptTime := upd s.lastAttemptTime id (some env.now) } id none _ [] hsk] at hout
          cases StepOutcome.caught.inj hout
        · rw [stepBody_viewOk env s id hv] at hout ⊢
          exact stepDispatch_caught_swap env { s with lastAttemptTime := upd s.lastAttemptTime id (some env.now) } id v hq hdb m hout
    · rw [processAGI_skip env s id hsk] at hout
      cases hout
  · intro hsk hg hout
    rw [processAGI_run env s id hsk hg] at hout ⊢
    rcases hv : env.view with msg | v
    · rw [stepBody_viewError env s id hv] at hout
      exact absurd hout (catchPath_ne_ok env _ id none _ [])
    · rw [stepBody_viewOk env s id hv] at hout ⊢
      rcases herr : (dispatch env
          { s with lastAttemptTime := upd s.lastAttemptTime id (some env.now) } id v
          (effectiveStatus v.orderStatus
            (QMState.orderStatus
              { s with lastAttemptTime := upd s.lastAttemptTime id (some env.now) } id))).2.2
        with _ | e2
      · rw [stepDispatch_ok env _ id v herr]
        dsimp only
        exact ⟨by simp [upd], by simp [upd]⟩
      · rw [stepDispatch_err env _ id v herr] at hout
        exact absurd hout (catchPath_ne_ok env _ id (some v) e2 _)
  · intro e h
    rcases hsk : shouldSkipTask s id with _ | _
    · by_cases hg : env.now - (s.lastAttemptTime id).getD 0 < (s.lastDelay id).getD RETRY_DELAY
      · rw [processAGI_gate env s id hsk hg] at h
        cases h
      · rw [processAGI_run env s id hsk hg] at h
        rcases hv : env.view with msg | v
        · rw [stepBody_viewError env s id hv] at h
          have hinit := catchPath_out_escaped env _ id none _ e _ h
          rw [hdb] at hinit
          cases hinit
        · rw [stepBody_viewOk env s id hv] at h
          exact stepDispatch_no_escape env { s with lastAttemptTime := upd s.lastAttemptTime id (some env.now) } id v hdb e h
    · rw [processAGI_skip env s id hsk] at h
      cases h

/-- C6 counterexample (to the claim as stated): a step that raises a
`SwapError` and thereby reaches the retry ceiling does not set
`requiredDelay` to `SWAP_RETRY_DELAY` and does not set `lastAttemptAt` —
eviction deletes both entries. -/
theorem c6_counterexample :
    (processAGI evictEnv evictState 9).2.2 =
      StepOutcome.caught (StepErr.swapError "Swap failed for AGI 9 at attempt 2") ∧
    (processAGI evictEnv evictState 9).1.lastDelay 9 = none ∧
    (processAGI evictEnv evictState 9).1.lastAttemptTime 9 = none := by
  refine ⟨by rfl, by rfl, by rfl⟩

/-- C6 witness: a failing contract read (a non-swap error) sets the generic
delay, records the attempt time, and leaves the queue unchanged. -/
theorem c6_witness :
    (processAGI readFailEnv (add initState 7) 7).1.lastDelay 7 = some RETRY_DELAY ∧
    (processAGI readFailEnv (add initState 7) 7).1.lastAttemptTime 7 = some readFailEnv.now ∧
    (processAGI readFailEnv (add initState 7) 7).1.queue = (add initState 7).queue :=
  (c6_delay_policy readFailEnv (add initState 7) 7 (by decide) rfl).1 "rpc down" (by rfl)

/-- C3 (amended): when a step's error brings the swap record of an id to the
retry ceiling (phase Failed, attempts ≥ `MAX_RETRIES`), the error path
removes the id from the queue, makes exactly one `recordFailedSwap` call
keyed by that id (insert-or-ignore on `agi_id`), deletes the id's
`lastAttemptAt` and `requiredDelay`, and retains both the swap record (for
`getfailedSwapTask`) and the `extStatus` entry; a step whose error is
non-swap never removes the intent from the queue. -/
theorem c3_retry_ceiling (env : TickEnv) (s : QMState) (id : Nat) (hq : id ∈ s.queue)
    (hdb : env.dbEnv.initFails = false) :
    (∀ e, (processAGI env s id).2.2 = StepOutcome.caught e →
       shouldSkipTask (processAGI env s id).1 id = true →
       (processAGI env s id).1.queue = s.queue.erase id ∧
       List.countP (isRecordFor id) (processAGI env s id).2.1 = 1 ∧
       (processAGI env s id).1.lastAttemptTime id = none ∧
       (processAGI env s id).1.lastDelay id = none ∧
       (∃ r, (processAGI env s id).1.swapResults id = some r ∧
          r.status = some SwapPhase.failed ∧ MAX_RETRIES ≤ r.attemptCount.getD 0) ∧
       (processAGI env s id).1.orderStatus id = s.orderStatus id) ∧
    (∀ m, (processAGI env s id).2.2 = StepOutcome.caught (StepErr.other m) →
       (processAGI env s id).1.queue = s.queue) ∧
    (∀ (db : List FailedRow) (row : FailedRow),
       db.any (fun r2 => r2.agi_id = row.agi_id) = false →
       recordFailedSwap noDbFail db row = Except.ok (db ++ [row])) ∧
    (∀ (db : List FailedRow) (row : FailedRow),
       db.any (fun r2 => r2.agi_id = row.agi_id) = true →
       recordFailedSwap noDbFail db row = Except.ok db) := by
  refine ⟨?_, ?_, ?_, ?_⟩
  · intro e hout hskpost
    rcases hsk : shouldSkipTask s id with _ | _
    · by_cases hg : env.now - (s.lastAttemptTime id).getD 0 < (s.lastDelay id).getD RETRY_DELAY
      · rw [processAGI_gate env s id hsk hg] at hout
        cases hout
      · rw [processAGI_run env s id hsk hg] at hout hskpost ⊢
        rcases hv : env.view with msg | v
        · rw [stepBody_viewError env s id hv] at hout hskpost ⊢
          rw [catchPath_noskip env { s with lastAttemptTime := upd s.lastAttemptTime id (some env.now) } id none _ [] hsk] at hskpost
          have hcontra : shouldSkipTask s id = true := hskpost
          rw [hsk] at hcontra
          cases hcontra
        · rw [stepBody_viewOk env s id hv] at hout hskpost ⊢
          exact stepDispatch_evict env { s with lastAttemptTime := upd s.lastAttemptTime id (some env.now) } id v hq hdb e hout hskpost
    · rw [processAGI_skip env s id hsk] at hout
      cases hout
  · intro m hout
    rcases hsk : shouldSkipTask s id with _ | _
    · by_cases hg : env.now - (s.lastAttemptTime id).getD 0 < (s.lastDelay id).getD RETRY_DELAY
      · rw [processAGI_gate env s id hsk hg] at hout
        cases hout
      · rw [processAGI_run env s id hsk hg] at hout ⊢
        rcases hv : env.view with msg | v
        · rw [stepBody_viewError env s id hv] at hout ⊢
          rw [catchPath_noskip env { s with lastAttemptTime := upd s.lastAttemptTime id (some env.now) } id none _ [] hsk]
        · rw [stepBody_viewOk env s id hv] at hout ⊢
          exact (stepDispatch_caught_other env { s with lastAttemptTime := upd s.lastAttemptTime id (some env.now) } id v hsk m hout).2.2
    · rw [processAGI_skip env s id hsk] at hout
      cases hout
  · intro db row h
    unfold recordFailedSwap insertOrIgnore noDbFail
    simp [h]
  · intro db row h
    unfold recordFailedSwap insertOrIgnore noDbFail
    simp [h]

/-- C3 counterexample (to "clears its progress"): in the eviction step for
intent 9, the id is removed from the queue, but its `extStatus` entry
(`orderStatus`) is still recorded afterwards — the internal overlay is not
cleared (its deletion is commented out in `removeFromQueue`). -/
theorem c3_counterexample :
    (processAGI evictEnv evictState 9).2.2 =
      StepOutcome.caught (StepErr.swapError "Swap failed for AGI 9 at attempt 2") ∧
    9 ∉ (processAGI evictEnv evictState 9).1.queue ∧
    (processAGI evictEnv evictState 9).1.orderStatus 9 = some 3 := by
  refine ⟨by rfl, by decide, by rfl⟩

/-- C3 witness: the concrete second-swap-failure step evicts intent 9 from
the queue and makes exactly one failure-record call for it. -/
theorem c3_witness :
    (processAGI evictEnv evictState 9).1.queue = evictState.queue.erase 9 ∧
    List.countP (isRecordFor 9) (processAGI evictEnv evictState 9).2.1 = 1 ∧
    (processAGI evictEnv evictState 9).1.lastDelay 9 = none :=
  let h := (c3_retry_ceiling evictEnv evictState 9 (by decide) rfl).1
    (StepErr.swapError "Swap failed for AGI 9 at attempt 2") (by rfl) (by rfl)
  ⟨h.1, h.2.1, h.2.2.2.1⟩

/-- On reachable states, a Completed swap record always has its
`amountToBuy` set (it is written in the same step that completes it and the
record is never mutated afterwards). -/
theorem reachable_completed_amount {s : QMState} (hs : Reachable s) :
    ∀ j r, s.swapResults j = some r → r.status = some SwapPhase.completed →
      r.amountToBuy.isSome := by
  induction hs with
  | init =>
      intro j _r h
      cases h
  | enqueue id hs ih =>
      intro j r h hc
      rw [add_swapResults] at h
      exact ih j r h hc
  | step env hs ih =>
      rename_i s0
      intro j r h hc
      rcases hq : s0.queue with _ | ⟨hd, tl⟩
      · rw [tick_empty env s0 hq] at h
        exact ih j r h hc
      · rcases hip : s0.isProcessing
        · rw [tick_run env s0 hip hq, startProcessing_idle_cons env s0 hip hq] at h
          have h2 : (processAGI env { s0 with isProcessing := true, queue := tl ++ [hd] }
              hd).1.swapResults j = some r := h
          rcases processAGI_completed_new env
              { s0 with isProcessing := true, queue := tl ++ [hd] } hd j h2 hc with h3 | h3
          · exact ih j r h3 hc
          · exact h3.1
        · rw [tick_busy env s0 hip hq] at h
          exact ih j r h hc

/-- C8 (amended): swap attempts are monotone non-decreasing across every
step; a step that leaves a Completed record either kept the pre-existing
record unchanged or created it with `amountToBuy` set while also setting
`extStatus = SwapCompleted` in that same step; and on every reachable state
a Completed record has `amountToBuy` set.  (The original claim's
"`extStatus ∈ {SwapCompleted, ProceedsReceived}` whenever the record is
Completed" fails after terminal cleanup — see the counterexample.) -/
theorem c8_attempts_and_completion :
    (∀ (env : TickEnv) (s : QMState) (id j : Nat),
       attemptsOf (s.swapResults j) ≤ attemptsOf ((processAGI env s id).1.swapResults j)) ∧
    (∀ (env : TickEnv) (s : QMState) (id j : Nat) (r : SwapResult),
       (processAGI env s id).1.swapResults j = some r →
       r.status = some SwapPhase.completed →
       s.swapResults j = some r ∨
         (r.amountToBuy.isSome ∧ (processAGI env s id).1.orderStatus j = some 4)) ∧
    (∀ s : QMState, Reachable s → ∀ j r, s.swapResults j = some r →
       r.status = some SwapPhase.completed → r.amountToBuy.isSome) :=
  ⟨fun env s id j => processAGI_attempts env s id j,
    fun env s id j _r h hc => processAGI_completed_new env s id j h hc,
    fun _ hs j r h hc => reachable_completed_amount hs j r h hc⟩

/-- C8 counterexample (to `swap.phase = Completed →
extStatus ∈ {SwapCompleted, ProceedsReceived}`): after the happy-path
lifecycle of intent 7 the swap record is still Completed but
`handleProceedsReceived` has deleted the `extStatus` entry, which is
therefore neither SwapCompleted nor ProceedsReceived. -/
theorem c8_counterexample :
    Reachable happyRun ∧
    happyRun.swapResults 7 = some ⟨some 7, some 100, some SwapPhase.completed, some 1⟩ ∧
    happyRun.orderStatus 7 = none :=
  ⟨Reachable.step _ (Reachable.step _ (Reachable.step _ (Reachable.step _ (Reachable.step _
      (Reachable.enqueue 7 Reachable.init))))),
    by rfl, by rfl⟩

/-- C8 witness: the first swap attempt for intent 3 creates a Completed
record with `amountToBuy` set and marks `extStatus = SwapCompleted` in the
same step; and on the reachable happy-path state, intent 7's Completed
record has its amount set. -/
theorem c8_witness :
    (bigSwapState.swapResults 3 =
        some ⟨some 3, some 9007199254740992, some SwapPhase.completed, some 1⟩ ∨
      ((⟨some 3, some 9007199254740992, some SwapPhase.completed, some 1⟩ :
          SwapResult).amountToBuy.isSome ∧
        (processAGI bigSwapEnv bigSwapState 3).1.orderStatus 3 = some 4)) ∧
    (⟨some 7, some 100, some SwapPhase.completed, some 1⟩ :
        SwapResult).amountToBuy.isSome :=
  ⟨c8_attempts_and_completion.2.1 bigSwapEnv bigSwapState 3 3
      ⟨some 3, some 9007199254740992, some SwapPhase.completed, some 1⟩ (by rfl) rfl,
    c8_attempts_and_completion.2.2 happyRun
      (Reachable.step _ (Reachable.step _ (Reachable.step _ (Reachable.step _ (Reachable.step _
        (Reachable.enqueue 7 Reachable.init)))))) 7
      ⟨some 7, some 100, some SwapPhase.completed, some 1⟩ (by rfl) rfl⟩

end SVF42
